import Mathlib

/-!
# Mozc TSF text service: surrounding text, candidate lists

A shallow embedding of `win32/tip/tip_surrounding_text.cc` and
`win32/tip/tip_candidate_list.cc`, followed by the theorems about them.

Conventions of the embedding:

* `std::wstring` is a list of UTF-16 code units (`WString`), each unit a natural number;
* `size_t` and `ULONG` values are natural numbers; every arithmetic step of the embedded
  functions stays within the range of its C++ type for containers that fit in memory, and
  the one subtraction on `size_t` that could wrap (`EnumTfCandidatesImpl::Skip`) is exact
  under the class invariant `current_ <= candidates_.size()`;
* `HRESULT` is an integer, `FAILED` means negative; a `LONG` is an integer, and the
  conversion of a `size_t` value to `LONG` is `toLONG`;
* output parameters become components of the returned value, and the embedded
  functions are the paths taken with non-null output pointers;
* calls into the host (TSF context, ranges, attached window) are answered by a record of
  responses, one per call site, and the calls made are logged in call order.
-/

namespace Tsf

/-! ## Basic types -/

/-- A `std::wstring`: UTF-16 code units. -/
abbrev WString := List Nat

/-- The Windows macro `IS_HIGH_SURROGATE`: `0xD800 <= c <= 0xDBFF`. -/
def IS_HIGH_SURROGATE (c : Nat) : Bool := decide (0xD800 ≤ c) && decide (c ≤ 0xDBFF)

/-- The Windows macro `IS_LOW_SURROGATE`: `0xDC00 <= c <= 0xDFFF`. -/
def IS_LOW_SURROGATE (c : Nat) : Bool := decide (0xDC00 ≤ c) && decide (c ≤ 0xDFFF)

/-! ## `TipSurroundingTextUtil::MeasureCharactersBackward` -/

/-- One pass through the body of the `while (true)` loop, after both `break` tests have
been passed: the new value of `checked_len_in_utf16`. -/
def measureStep (text : WString) (checked_len_in_utf16 : Nat) : Nat :=
  let checked1 := checked_len_in_utf16 + 1
  let index_low := text.length - checked1
  if IS_LOW_SURROGATE (text.getD index_low 0) then
    if checked1 + 1 ≤ text.length then
      let index_high := text.length - checked1 - 1
      if IS_HIGH_SURROGATE (text.getD index_high 0) then checked1 + 1 else checked1
    else checked1
  else checked1

/-- The `while (true)` loop of `MeasureCharactersBackward`, from the loop state
`(checked_len_in_utf16, num_char_in_ucs4)`; the result is the state at the `break`.
The first argument bounds the number of iterations; `none` is returned when it runs out. -/
def measureLoop (text : WString) (characters_in_ucs4 : Nat) :
    Nat → Nat → Nat → Option (Nat × Nat)
  | 0, _, _ => none
  | fuel + 1, checked_len_in_utf16, num_char_in_ucs4 =>
    if num_char_in_ucs4 ≥ characters_in_ucs4 then
      some (checked_len_in_utf16, num_char_in_ucs4)
    else if checked_len_in_utf16 + 1 > text.length then
      some (checked_len_in_utf16, num_char_in_ucs4)
    else
      measureLoop text characters_in_ucs4 fuel
        (measureStep text checked_len_in_utf16) (num_char_in_ucs4 + 1)

/-- The function `TipSurroundingTextUtil::MeasureCharactersBackward(text, characters_in_ucs4, &out)`
with a non-null `out`: the returned flag and the final value of `*out` (which is set to 0
on entry and overwritten only on success). Every iteration consumes at least one code
unit, so `text.length + 1` iterations are allowed; `none` would mean the loop did not
finish within them. -/
def MeasureCharactersBackward (text : WString) (characters_in_ucs4 : Nat) :
    Option (Bool × Nat) :=
  match measureLoop text characters_in_ucs4 (text.length + 1) 0 0 with
  | none => none
  | some (checked_len_in_utf16, num_char_in_ucs4) =>
    if num_char_in_ucs4 ≠ characters_in_ucs4 then some (false, 0)
    else some (true, checked_len_in_utf16)

/-! ### The specification's reading of scalar characters -/

/-- Widths of the scalar characters of a buffer, front to back, as the specification
words it: a high surrogate immediately followed by a low surrogate is one scalar
character of width 2, every other unit (a lone surrogate included) is one scalar
character of width 1. -/
def scalarWidths : WString → List Nat
  | [] => []
  | [_] => [1]
  | h :: l :: rest =>
    if IS_HIGH_SURROGATE h && IS_LOW_SURROGATE l then 2 :: scalarWidths rest
    else 1 :: scalarWidths (l :: rest)

/-- Number of scalar characters of a buffer (surrogate pairs counted once). -/
def scalarLength (text : WString) : Nat := (scalarWidths text).length

/-- Sum of the widths of the last `k` scalar characters of a buffer. -/
def lastScalarsWidth (text : WString) (k : Nat) : Nat :=
  (((scalarWidths text).reverse).take k).sum

/-! ## `HRESULT` -/

/-- A COM status code, as a signed 32-bit value. -/
abbrev HRESULT := Int

/-- The status `S_OK` is 0. -/
def S_OK : HRESULT := 0

/-- The status `S_FALSE` is 1: a success code that reports a partial result. -/
def S_FALSE : HRESULT := 1

/-- The status `E_FAIL` is `0x80004005`. -/
def E_FAIL : HRESULT := -2147467259

/-- The status `E_INVALIDARG` is `0x80070057`. -/
def E_INVALIDARG : HRESULT := -2147024809

/-- The status `E_UNEXPECTED` is `0x8000FFFF`. -/
def E_UNEXPECTED : HRESULT := -2147418113

/-- The macro `FAILED(hr)`: `hr < 0`. -/
def FAILED (hr : HRESULT) : Bool := decide (hr < 0)

/-- The macro `SUCCEEDED(hr)`: `hr >= 0`. -/
def SUCCEEDED (hr : HRESULT) : Bool := decide (0 ≤ hr)

/-! ## `tip_candidate_list.cc` -/

/-- The class `CandidateStringImpl`: the members `index_` and `value_`. -/
structure CandidateStringImpl where
  index_ : Nat
  value_ : WString
  deriving DecidableEq, Repr

/-- The method `CandidateStringImpl::GetString` with a non-null `str`: the status and `*str`. -/
def CandidateStringImpl.GetString (self : CandidateStringImpl) : HRESULT × WString :=
  (S_OK, self.value_)

/-- The method `CandidateStringImpl::GetIndex` with a non-null `index`: the status and `*index`. -/
def CandidateStringImpl.GetIndex (self : CandidateStringImpl) : HRESULT × Nat :=
  (S_OK, self.index_)

/-- The class `EnumTfCandidatesImpl`: the members `candidates_` and `current_`. -/
structure EnumTfCandidatesImpl where
  candidates_ : List WString
  current_ : Nat
  deriving DecidableEq, Repr

/-- The constructor `EnumTfCandidatesImpl(candidates)`:
`candidates_(candidates), current_(0)`. -/
def EnumTfCandidatesImpl.new (candidates : List WString) : EnumTfCandidatesImpl :=
  { candidates_ := candidates, current_ := 0 }

/-- The method `EnumTfCandidatesImpl::Clone` with a non-null `enum_candidates` (and an allocation
that succeeds): the status and the object stored in `*enum_candidates`, built by
`MakeComPtr<EnumTfCandidatesImpl>(candidates_)`. The enumerator itself is not modified. -/
def EnumTfCandidatesImpl.Clone (self : EnumTfCandidatesImpl) :
    HRESULT × EnumTfCandidatesImpl :=
  (S_OK, EnumTfCandidatesImpl.new self.candidates_)

/-- What `EnumTfCandidatesImpl::Next` leaves behind: the status, the entries
`candidate_string[0], candidate_string[1], ...` written so far, `*fetched_count`, and
the enumerator after the call. -/
structure NextResult where
  hr : HRESULT
  candidate_string : List CandidateStringImpl
  fetched_count : Nat
  self : EnumTfCandidatesImpl
  deriving DecidableEq, Repr

/-- The `for (ULONG i = 0; i < count; ++i)` loop of `Next`. The first argument is
`count - i`, the number of iterations still to run; `written` holds
`candidate_string[0..i)`. -/
def EnumTfCandidatesImpl.NextLoop (count : Nat) :
    Nat → Nat → EnumTfCandidatesImpl → List CandidateStringImpl → NextResult
  | 0, _, self, written =>
    { hr := S_OK, candidate_string := written, fetched_count := count, self := self }
  | remaining + 1, i, self, written =>
    if self.current_ ≥ self.candidates_.length then
      { hr := S_FALSE, candidate_string := written, fetched_count := i, self := self }
    else
      EnumTfCandidatesImpl.NextLoop count remaining (i + 1)
        { self with current_ := self.current_ + 1 }
        (written ++ [{ index_ := self.current_,
                       value_ := self.candidates_.getD self.current_ [] }])

/-- The method `EnumTfCandidatesImpl::Next(count, candidate_string, fetched_count)` with a non-null
`candidate_string` array. -/
def EnumTfCandidatesImpl.Next (self : EnumTfCandidatesImpl) (count : Nat) : NextResult :=
  EnumTfCandidatesImpl.NextLoop count count 0 self []

/-- The method `EnumTfCandidatesImpl::Reset`. -/
def EnumTfCandidatesImpl.Reset (self : EnumTfCandidatesImpl) :
    HRESULT × EnumTfCandidatesImpl :=
  (S_OK, { self with current_ := 0 })

/-- The method `EnumTfCandidatesImpl::Skip(count)`: the status and the enumerator after the call.
The difference `candidates_.size() - current_` is the one of `size_t` as long as
`current_ <= candidates_.size()`. -/
def EnumTfCandidatesImpl.Skip (self : EnumTfCandidatesImpl) (count : Nat) :
    HRESULT × EnumTfCandidatesImpl :=
  if (self.candidates_.length - self.current_) < count then
    (S_FALSE, { self with current_ := self.candidates_.length })
  else
    (S_OK, { self with current_ := self.current_ + count })

/-- The enumeration `TfCandidateResult` of `ctffunc.h`. -/
inductive TfCandidateResult where
  | CAND_FINALIZED
  | CAND_SELECTED
  | CAND_CANCELED
  deriving DecidableEq, Repr

/-- A `TipCandidateListCallback` object, known by an identifier. -/
abbrev TipCandidateListCallback := Nat

/-- One call `callback->OnFinalize(index, candidate)`. -/
structure OnFinalizeCall where
  callback : TipCandidateListCallback
  index : Nat
  candidate : WString
  deriving DecidableEq, Repr

/-- The class `CandidateListImpl`: the members `candidates_` and `callback_`
(`none` is the null `unique_ptr`). -/
structure CandidateListImpl where
  candidates_ : List WString
  callback_ : Option TipCandidateListCallback
  deriving DecidableEq, Repr

/-- The factory `TipCandidateList::New(candidates, callback)`. -/
def TipCandidateList.New (candidates : List WString)
    (callback : Option TipCandidateListCallback) : CandidateListImpl :=
  { candidates_ := candidates, callback_ := callback }

/-- The method `CandidateListImpl::EnumCandidates` with a non-null `enum_candidate`. -/
def CandidateListImpl.EnumCandidates (self : CandidateListImpl) :
    HRESULT × EnumTfCandidatesImpl :=
  (S_OK, EnumTfCandidatesImpl.new self.candidates_)

/-- The method `CandidateListImpl::GetCandidate(index, candidate_string)` with a non-null
`candidate_string`: the status and the object stored in `*candidate_string`, if any. -/
def CandidateListImpl.GetCandidate (self : CandidateListImpl) (index : Nat) :
    HRESULT × Option CandidateStringImpl :=
  if index ≥ self.candidates_.length then (E_FAIL, none)
  else (S_OK, some { index_ := index, value_ := self.candidates_.getD index [] })

/-- The method `CandidateListImpl::GetCandidateNum` with a non-null `count`. -/
def CandidateListImpl.GetCandidateNum (self : CandidateListImpl) : HRESULT × Nat :=
  (S_OK, self.candidates_.length)

/-- What `CandidateListImpl::SetResult` leaves behind: the status, the calls made to
`OnFinalize` during the call, and the list object after the call. -/
structure SetResultOutcome where
  hr : HRESULT
  calls : List OnFinalizeCall
  self : CandidateListImpl
  deriving DecidableEq, Repr

/-- The method `CandidateListImpl::SetResult(index, candidate_result)`. -/
def CandidateListImpl.SetResult (self : CandidateListImpl) (index : Nat)
    (candidate_result : TfCandidateResult) : SetResultOutcome :=
  if self.candidates_.length ≤ index then
    { hr := E_INVALIDARG, calls := [], self := self }
  else
    match candidate_result, self.callback_ with
    | TfCandidateResult.CAND_FINALIZED, some callback =>
      { hr := S_OK,
        calls := [{ callback := callback, index := index,
                    candidate := self.candidates_.getD index [] }],
        self := { self with callback_ := none } }
    | _, _ => { hr := S_OK, calls := [], self := self }

/-- A sequence of `SetResult` calls on one list object: the outcome of each call, in
call order. -/
def CandidateListImpl.SetResults (self : CandidateListImpl) :
    List (Nat × TfCandidateResult) → List SetResultOutcome
  | [] => []
  | (index, candidate_result) :: rest =>
    let r := self.SetResult index candidate_result
    r :: CandidateListImpl.SetResults r.self rest

/-- A call `SetResult(index, candidate_result)` on a list of `N` candidates that asks to
finalize an existing candidate: `candidate_result == CAND_FINALIZED` and `index < N`. -/
def finalizesCandidate (N : Nat) (call : Nat × TfCandidateResult) : Prop :=
  call.2 = TfCandidateResult.CAND_FINALIZED ∧ call.1 < N

instance (N : Nat) (call : Nat × TfCandidateResult) : Decidable (finalizesCandidate N call) :=
  inferInstanceAs (Decidable (call.2 = TfCandidateResult.CAND_FINALIZED ∧ call.1 < N))

/-! ## `tip_surrounding_text.cc`: the host -/

/-- The structure `TipSurroundingTextInfo`. -/
structure TipSurroundingTextInfo where
  preceding_text : WString
  selected_text : WString
  following_text : WString
  has_preceding_text : Bool
  has_selected_text : Bool
  has_following_text : Bool
  is_transitory : Bool
  in_composition : Bool
  deriving DecidableEq, Repr

/-- The constructor `TipSurroundingTextInfo()`: the five flags are false and the three
strings are default-constructed, that is empty. -/
def TipSurroundingTextInfo.new : TipSurroundingTextInfo :=
  { preceding_text := [], selected_text := [], following_text := [],
    has_preceding_text := false, has_selected_text := false, has_following_text := false,
    is_transitory := false, in_composition := false }

/-- The constant `kMaxSurroundingLength`. -/
def kMaxSurroundingLength : Int := 20

/-- The constant `kMaxCharacterLength`. -/
def kMaxCharacterLength : Nat := 1024 * 1024

/-- The flag `TF_SS_TRANSITORY` of `TF_STATUS::dwStaticFlags` (`msctf.h`). -/
def TF_SS_TRANSITORY : Nat := 0x4

/-- The flag `TF_HF_OBJECT` of `TF_HALTCOND::dwFlags` (`msctf.h`): a shift halts at an
embedded object. -/
def TF_HF_OBJECT : Nat := 0x1

/-- The flag `TF_ES_SYNC` of `RequestEditSession` (`msctf.h`). -/
def TF_ES_SYNC : Nat := 0x1

/-- The flag `TF_ES_READ` of `RequestEditSession` (`msctf.h`). -/
def TF_ES_READ : Nat := 0x2

/-- The flag `TF_ES_READWRITE` of `RequestEditSession` (`msctf.h`). -/
def TF_ES_READWRITE : Nat := 0x6

/-- The enumeration `TfAnchor` (`msctf.h`). -/
inductive TfAnchor where
  | TF_ANCHOR_START
  | TF_ANCHOR_END
  deriving DecidableEq, Repr

/-- A call made to the host: to the TSF context and its ranges, or to the window
attached to the context. Arguments that the theorems speak about are recorded. -/
inductive HostCall where
  /-- The call `ITfContext::RequestEditSession` with its flags. -/
  | RequestEditSession (flags : Nat)
  /-- The call `ITfContext::GetStatus`. -/
  | GetStatus
  /-- The call `TipCompositionUtil::GetCompositionView`. -/
  | GetCompositionView
  /-- The call `TipRangeUtil::GetDefaultSelection`. -/
  | GetDefaultSelection
  /-- The call `TipRangeUtil::GetText`. -/
  | GetText
  /-- The call `TipRangeUtil::SetSelection(..., TF_AE_START)`. -/
  | SetSelection
  /-- The call `ITfRange::Clone`. -/
  | Clone
  /-- The call `ITfRange::Collapse` with its anchor. -/
  | Collapse (anchor : TfAnchor)
  /-- The call `ITfRange::ShiftStart` with the requested count and the `dwFlags` of the
  halt condition. -/
  | ShiftStart (count : Int) (halt_flags : Nat)
  /-- The call `ITfRange::ShiftEnd` with the requested count and the `dwFlags` of the
  halt condition. -/
  | ShiftEnd (count : Int) (halt_flags : Nat)
  /-- The call `ITfRange::SetText` with the new text. -/
  | SetText (text : WString)
  /-- The call `ITfContext::GetActiveView`. -/
  | GetActiveView
  /-- The call `ITfContextView::GetWnd`. -/
  | GetWnd
  /-- The call `SendMessage(attached_window, WM_IME_REQUEST, IMR_RECONVERTSTRING, lParam)`:
  `none` for `lParam == 0`, `some n` for a buffer whose `dwSize` is `n`. -/
  | SendMessage (dwSize : Option Nat)
  /-- The call `ReconvertString::Decompose`. -/
  | Decompose
  deriving DecidableEq, Repr

/-- The calls of the legacy (IMM32) reconversion path. -/
def HostCall.isLegacy : HostCall → Bool
  | HostCall.GetActiveView => true
  | HostCall.GetWnd => true
  | HostCall.SendMessage _ => true
  | HostCall.Decompose => true
  | _ => false

/-- One answer of `IEnumITfCompositionView::Next(1, ...)`: the status, `num_fetched`, and
for the fetched view the status of `GetOwnerClsid` and whether the class identifier it
gives is `TsfProfile::GetTextServiceGuid()`. -/
structure CompositionViewAnswer where
  hr : HRESULT
  num_fetched : Nat
  GetOwnerClsid : HRESULT
  owner_is_text_service : Bool
  deriving DecidableEq, Repr

/-- What the host answers to `TipCompositionUtil::GetCompositionView`: the status of the
query for `ITfContextComposition`, the status of `FindComposition`, and the answers of
the successive `Next` calls. An enumerator is finite: once these answers are used up,
`Next` answers `S_FALSE`. -/
structure CompositionHost where
  As_ITfContextComposition : HRESULT
  FindComposition : HRESULT
  Next : List CompositionViewAnswer
  deriving DecidableEq, Repr

/-- The `while (true)` loop of `TipCompositionUtil::GetCompositionView`, over the
answers of `Next` that are left: whether a view is returned. -/
def GetCompositionViewLoop : List CompositionViewAnswer → Bool
  | [] => false
  | answer :: rest =>
    if answer.hr ≠ S_OK then false
    else if answer.num_fetched ≠ 1 then false
    else if FAILED answer.GetOwnerClsid then GetCompositionViewLoop rest
    else if !answer.owner_is_text_service then GetCompositionViewLoop rest
    else true

/-- The function `TipCompositionUtil::GetCompositionView`: whether the returned pointer is
non-null. -/
def GetCompositionView (host : CompositionHost) : Bool :=
  if FAILED host.As_ITfContextComposition then false
  else if FAILED host.FindComposition then false
  else GetCompositionViewLoop host.Next

/-- What the host answers during `SurroudingTextUpdater::DoEditSession`, call site by
call site. For `GetStatus` the second component is `status.dwStaticFlags`; for the calls
of `TipRangeUtil::GetText` (a function of this repository that is not among the sources)
it is the content of the output string after the call. -/
structure UpdaterHost where
  GetStatus : HRESULT × Nat
  composition : CompositionHost
  GetDefaultSelection : HRESULT
  GetText_selected : HRESULT × WString
  SetSelection : HRESULT
  Clone_preceding : HRESULT
  Collapse_preceding : HRESULT
  ShiftStart_preceding : HRESULT
  GetText_preceding : HRESULT × WString
  Clone_following : HRESULT
  Collapse_following : HRESULT
  ShiftEnd_following : HRESULT
  GetText_following : HRESULT × WString
  deriving DecidableEq, Repr

/-- What `ITfContext::RequestEditSession` does with a synchronous request: its return
value `hr`, and either it runs `DoEditSession` and stores the returned status in
`*phrSession` (`ran_session = none`), or it does not run it and leaves the given value
in `*phrSession` (`S_OK` if it does not write there). -/
structure RequestEditSessionAnswer where
  hr : HRESULT
  ran_session : Option HRESULT
  deriving DecidableEq, Repr

/-! ## `SurroudingTextUpdater` -/

/-- What an edit session of `SurroudingTextUpdater` leaves behind: the status returned
by `DoEditSession`, the member `result_`, and the calls made to the host. -/
structure UpdaterOutcome where
  hr : HRESULT
  result_ : TipSurroundingTextInfo
  calls : List HostCall
  deriving DecidableEq, Repr

/-- The guarded read on one side of the selection in `DoEditSession`:
`Clone && Collapse && Shift...` with short-circuit evaluation, then `GetText` if all
three succeeded. The result is the answer of `GetText` if it was called. -/
def readSide (clone collapse shift : HRESULT) (getText : HRESULT × WString)
    (collapseCall shiftCall : HostCall) : Option (HRESULT × WString) × List HostCall :=
  if !SUCCEEDED clone then (none, [HostCall.Clone])
  else if !SUCCEEDED collapse then (none, [HostCall.Clone, collapseCall])
  else if !SUCCEEDED shift then (none, [HostCall.Clone, collapseCall, shiftCall])
  else (some getText, [HostCall.Clone, collapseCall, shiftCall, HostCall.GetText])

/-- The method `SurroudingTextUpdater::DoEditSession`, for an updater constructed with
`move_anchor` (whose `result_` is default-constructed). -/
def SurroudingTextUpdater.DoEditSession (host : UpdaterHost) (move_anchor : Bool) :
    UpdaterOutcome :=
  let result0 := TipSurroundingTextInfo.new
  if FAILED host.GetStatus.1 then
    { hr := host.GetStatus.1, result_ := result0, calls := [HostCall.GetStatus] }
  else
    let result1 := { result0 with
      is_transitory := (Nat.land host.GetStatus.2 TF_SS_TRANSITORY == TF_SS_TRANSITORY) }
    let result2 := { result1 with in_composition := GetCompositionView host.composition }
    let calls2 := [HostCall.GetStatus, HostCall.GetCompositionView,
      HostCall.GetDefaultSelection]
    if FAILED host.GetDefaultSelection then
      { hr := host.GetDefaultSelection, result_ := result2, calls := calls2 }
    else
      let result3 := { result2 with
        selected_text := host.GetText_selected.2,
        has_selected_text := SUCCEEDED host.GetText_selected.1 }
      let calls3 := calls2 ++ [HostCall.GetText]
      if move_anchor && FAILED host.SetSelection then
        { hr := host.SetSelection, result_ := result3,
          calls := calls3 ++ [HostCall.SetSelection] }
      else
        let calls4 := if move_anchor then calls3 ++ [HostCall.SetSelection] else calls3
        let halt_cond := TF_HF_OBJECT
        let preceding := readSide host.Clone_preceding host.Collapse_preceding
          host.ShiftStart_preceding host.GetText_preceding
          (HostCall.Collapse TfAnchor.TF_ANCHOR_START)
          (HostCall.ShiftStart (-kMaxSurroundingLength) halt_cond)
        let result4 := match preceding.1 with
          | none => result3
          | some (hr, text) =>
            { result3 with preceding_text := text, has_preceding_text := SUCCEEDED hr }
        let following := readSide host.Clone_following host.Collapse_following
          host.ShiftEnd_following host.GetText_following
          (HostCall.Collapse TfAnchor.TF_ANCHOR_END)
          (HostCall.ShiftEnd kMaxSurroundingLength halt_cond)
        let result5 := match following.1 with
          | none => result4
          | some (hr, text) =>
            { result4 with following_text := text, has_following_text := SUCCEEDED hr }
        { hr := S_OK, result_ := result5, calls := calls4 ++ preceding.2 ++ following.2 }

/-! ## Reconversion -/

/-- What a reconversion path leaves behind: the returned flag, `*info` after the call,
and the calls made to the host. -/
structure PathOutcome where
  ok : Bool
  info : TipSurroundingTextInfo
  calls : List HostCall
  deriving DecidableEq, Repr

/-- What the host answers to `PrepareForReconversionTSF`: to `RequestEditSession` and,
if the session runs, inside it. -/
structure TsfHost where
  RequestEditSession : RequestEditSessionAnswer
  session : UpdaterHost
  deriving DecidableEq, Repr

/-- The function `PrepareForReconversionTSF(text_service, context, info)`: a synchronous read-write
edit session of a `SurroudingTextUpdater` with `move_anchor = true`, requested from the
context given by `TipTransitoryExtension::ToParentContextIfExists`. `*info` is written
only on success. -/
def PrepareForReconversionTSF (host : TsfHost) (info : TipSurroundingTextInfo) :
    PathOutcome :=
  let request := HostCall.RequestEditSession (Nat.lor TF_ES_SYNC TF_ES_READWRITE)
  let updater : UpdaterOutcome := match host.RequestEditSession.ran_session with
    | none => SurroudingTextUpdater.DoEditSession host.session true
    | some written => { hr := written, result_ := TipSurroundingTextInfo.new, calls := [] }
  let edit_session_result := updater.hr
  let hr := host.RequestEditSession.hr
  if FAILED hr then { ok := false, info := info, calls := request :: updater.calls }
  else if FAILED edit_session_result then
    { ok := false, info := info, calls := request :: updater.calls }
  else { ok := true, info := updater.result_, calls := request :: updater.calls }

/-- The five strings that `ReconvertString::Decompose` extracts from a
`RECONVERTSTRING`. -/
structure DecomposedReconvertString where
  preceding_text : WString
  preceding_composition : WString
  target : WString
  following_composition : WString
  following_text : WString
  deriving DecidableEq, Repr

/-- What the host answers to `PrepareForReconversionIMM32`: the status of
`GetActiveView` and whether the view it gives is non-null, the status of `GetWnd`, the
values returned by the two `SendMessage` calls, and the outcome of
`ReconvertString::Decompose` (a function of this repository that is not among the
sources) on the buffer filled by the window: `none` when it returns false. -/
structure Imm32Host where
  GetActiveView : HRESULT × Bool
  GetWnd : HRESULT
  SendMessage_size : Int
  SendMessage_fill : Int
  Decompose : Option DecomposedReconvertString
  deriving DecidableEq, Repr

/-- The function `PrepareForReconversionIMM32(context, info)`. The buffer of
`static_cast<size_t>(result)` bytes is taken to be allocated; `*info` is written only on
success. -/
def PrepareForReconversionIMM32 (host : Imm32Host) (info : TipSurroundingTextInfo) :
    PathOutcome :=
  let calls1 := [HostCall.GetActiveView]
  if FAILED host.GetActiveView.1 then { ok := false, info := info, calls := calls1 }
  else if !host.GetActiveView.2 then { ok := false, info := info, calls := calls1 }
  else
    let calls2 := calls1 ++ [HostCall.GetWnd]
    if FAILED host.GetWnd then { ok := false, info := info, calls := calls2 }
    else
      let calls3 := calls2 ++ [HostCall.SendMessage none]
      if host.SendMessage_size == 0 then { ok := false, info := info, calls := calls3 }
      else
        let buffer_size := (host.SendMessage_size % 2 ^ 64).toNat
        let calls4 := calls3 ++ [HostCall.SendMessage (some buffer_size)]
        if host.SendMessage_fill == 0 then { ok := false, info := info, calls := calls4 }
        else
          let calls5 := calls4 ++ [HostCall.Decompose]
          match host.Decompose with
          | none => { ok := false, info := info, calls := calls5 }
          | some d =>
            { ok := true,
              info := { info with
                in_composition := false,
                is_transitory := false,
                has_preceding_text := true,
                preceding_text := d.preceding_text,
                has_selected_text := true,
                selected_text := d.preceding_composition ++ d.target ++ d.following_composition,
                has_following_text := true,
                following_text := d.following_text },
              calls := calls5 }

/-- What the host answers to `PrepareForReconversionFromIme`, on each of the two paths. -/
structure ReconversionHost where
  tsf : TsfHost
  imm32 : Imm32Host
  deriving DecidableEq, Repr

/-- What `PrepareForReconversionFromIme` leaves behind: the returned flag, `*info`,
`*need_async_reconversion`, and the calls made to the host. -/
structure ReconversionOutcome where
  ok : Bool
  info : TipSurroundingTextInfo
  need_async_reconversion : Bool
  calls : List HostCall
  deriving DecidableEq, Repr

/-- The function `TipSurroundingText::PrepareForReconversionFromIme` with non-null `info` and
`need_async_reconversion`. -/
def PrepareForReconversionFromIme (host : ReconversionHost) : ReconversionOutcome :=
  let info0 := TipSurroundingTextInfo.new
  let tsf := PrepareForReconversionTSF host.tsf info0
  if tsf.ok && !tsf.info.is_transitory then
    { ok := true, info := tsf.info, need_async_reconversion := false, calls := tsf.calls }
  else
    let imm32 := PrepareForReconversionIMM32 host.imm32 tsf.info
    if !imm32.ok then
      { ok := false, info := imm32.info, need_async_reconversion := false,
        calls := tsf.calls ++ imm32.calls }
    else
      { ok := true, info := imm32.info, need_async_reconversion := true,
        calls := tsf.calls ++ imm32.calls }

/-! ## `TipSurroundingText::Get` -/

/-- The function `TipSurroundingText::Get(text_service, context, info)` with a non-null
`info`: a synchronous read-only edit session of a `SurroudingTextUpdater` with
`move_anchor = false`, requested from the context given by
`TipTransitoryExtension::ToParentContextIfExists`. `*info` is reset on entry and
written again only on success. -/
def TipSurroundingText.Get (host : TsfHost) : PathOutcome :=
  let info0 := TipSurroundingTextInfo.new
  let request := HostCall.RequestEditSession (Nat.lor TF_ES_SYNC TF_ES_READ)
  let updater : UpdaterOutcome := match host.RequestEditSession.ran_session with
    | none => SurroudingTextUpdater.DoEditSession host.session false
    | some written => { hr := written, result_ := TipSurroundingTextInfo.new, calls := [] }
  let edit_session_result := updater.hr
  let hr := host.RequestEditSession.hr
  if FAILED hr then { ok := false, info := info0, calls := request :: updater.calls }
  else if FAILED edit_session_result then
    { ok := false, info := info0, calls := request :: updater.calls }
  else { ok := true, info := updater.result_, calls := request :: updater.calls }

/-! ## `PrecedingTextDeleter` -/

/-- The conversion of a `size_t` value to `LONG` (32 bits, two's complement). -/
def toLONG (n : Nat) : Int := ((n : Int) + 2 ^ 31) % 2 ^ 32 - 2 ^ 31

/-- The calls that move a range boundary, read text or write text. -/
def HostCall.isRangeAccess : HostCall → Bool
  | HostCall.ShiftStart _ _ => true
  | HostCall.ShiftEnd _ _ => true
  | HostCall.GetText => true
  | HostCall.SetText _ => true
  | _ => false

/-- The calls `ITfRange::SetText`. -/
def HostCall.isSetText : HostCall → Bool
  | HostCall.SetText _ => true
  | _ => false

/-- What the host answers during `PrecedingTextDeleter::DoEditSession`, call site by
call site. For `GetText` the second component is the content of the output string after
the call. The second `ShiftStart` is answered according to the count requested: the
status and the value stored in `preceding_range_shifted`. -/
structure DeleterHost where
  GetDefaultSelection : HRESULT
  Clone : HRESULT
  Collapse : HRESULT
  ShiftStart_initial : HRESULT
  GetText : HRESULT × WString
  ShiftStart_final : Int → HRESULT × Int
  SetText : HRESULT

/-- What an edit session of `PrecedingTextDeleter` leaves behind: the status returned by
`DoEditSession` and the calls made to the host. -/
structure DeleterOutcome where
  hr : HRESULT
  calls : List HostCall
  deriving DecidableEq, Repr

/-- The method `PrecedingTextDeleter::DoEditSession`, for a deleter constructed with
`num_characters_in_ucs4`. The cast `static_cast<LONG>(num_characters_in_ucs4_)` is
reached only below `kMaxCharacterLength`, where the product by 2 fits in a `LONG`. The
result is `none` only if `MeasureCharactersBackward` gives no result. -/
def PrecedingTextDeleter.DoEditSession (host : DeleterHost) (num_characters_in_ucs4 : Nat) :
    Option DeleterOutcome :=
  let calls1 := [HostCall.GetDefaultSelection]
  if FAILED host.GetDefaultSelection then
    some { hr := host.GetDefaultSelection, calls := calls1 }
  else
    let halt_cond := 0
    let calls2 := calls1 ++ [HostCall.Clone]
    if FAILED host.Clone then some { hr := E_FAIL, calls := calls2 }
    else
      let calls3 := calls2 ++ [HostCall.Collapse TfAnchor.TF_ANCHOR_START]
      if FAILED host.Collapse then some { hr := E_FAIL, calls := calls3 }
      else if num_characters_in_ucs4 ≥ kMaxCharacterLength then
        some { hr := E_UNEXPECTED, calls := calls3 }
      else
        let initial_offset_utf16 := -(toLONG num_characters_in_ucs4) * 2
        let calls4 := calls3 ++ [HostCall.ShiftStart initial_offset_utf16 halt_cond]
        if FAILED host.ShiftStart_initial then some { hr := E_FAIL, calls := calls4 }
        else
          let calls5 := calls4 ++ [HostCall.GetText]
          if FAILED host.GetText.1 then some { hr := E_FAIL, calls := calls5 }
          else
            let total_string := host.GetText.2
            if total_string.isEmpty then some { hr := E_FAIL, calls := calls5 }
            else
              match MeasureCharactersBackward total_string num_characters_in_ucs4 with
              | none => none
              | some (false, _) => some { hr := E_FAIL, calls := calls5 }
              | some (true, len_in_utf16) =>
                let final_offset := toLONG (total_string.length - len_in_utf16)
                let shift := host.ShiftStart_final final_offset
                let calls6 := calls5 ++ [HostCall.ShiftStart final_offset halt_cond]
                if FAILED shift.1 then some { hr := E_FAIL, calls := calls6 }
                else if final_offset ≠ shift.2 then some { hr := E_FAIL, calls := calls6 }
                else
                  let calls7 := calls6 ++ [HostCall.SetText []]
                  if FAILED host.SetText then some { hr := E_FAIL, calls := calls7 }
                  else some { hr := S_OK, calls := calls7 }

/-- What the host answers to `DeletePrecedingText`: to `RequestEditSession` and, if the
session runs, inside it. -/
structure DeleteHost where
  RequestEditSession : RequestEditSessionAnswer
  session : DeleterHost

/-- What `DeletePrecedingText` leaves behind: the returned flag and the calls made to the
host. -/
structure DeleteOutcome where
  ok : Bool
  calls : List HostCall
  deriving DecidableEq, Repr

/-- The function `TipSurroundingText::DeletePrecedingText(text_service, context,
num_characters_to_be_deleted_in_ucs4)`: a synchronous read-write edit session of a
`PrecedingTextDeleter`. -/
def TipSurroundingText.DeletePrecedingText (host : DeleteHost)
    (num_characters_to_be_deleted_in_ucs4 : Nat) : Option DeleteOutcome :=
  let request := HostCall.RequestEditSession (Nat.lor TF_ES_SYNC TF_ES_READWRITE)
  let session : Option DeleterOutcome := match host.RequestEditSession.ran_session with
    | none => PrecedingTextDeleter.DoEditSession host.session
        num_characters_to_be_deleted_in_ucs4
    | some written => some { hr := written, calls := [] }
  match session with
  | none => none
  | some deleter =>
    let edit_session_result := deleter.hr
    let hr := host.RequestEditSession.hr
    if FAILED hr then some { ok := false, calls := request :: deleter.calls }
    else if FAILED edit_session_result then
      some { ok := false, calls := request :: deleter.calls }
    else some { ok := true, calls := request :: deleter.calls }

/-- The conditions under which the deletion session is to reach `SetText`, as the
specification lists them: the selection lookup, clone, collapse, bound check, backward
shift, text read, non-empty check, measurement and forward re-shift succeed, and the
shift performed by the host equals the computed final offset. -/
def PrecedingTextDeleter.reachesSetText (host : DeleterHost) (k : Nat) : Prop :=
  FAILED host.GetDefaultSelection = false ∧
  FAILED host.Clone = false ∧
  FAILED host.Collapse = false ∧
  k < kMaxCharacterLength ∧
  FAILED host.ShiftStart_initial = false ∧
  FAILED host.GetText.1 = false ∧
  host.GetText.2 ≠ [] ∧
  ∃ len, MeasureCharactersBackward host.GetText.2 k = some (true, len) ∧
    FAILED (host.ShiftStart_final (toLONG (host.GetText.2.length - len))).1 = false ∧
    (host.ShiftStart_final (toLONG (host.GetText.2.length - len))).2 =
      toLONG (host.GetText.2.length - len)

/-! ## `TipRefCount` -/

/-- Modelled from the spec: the class `TipRefCount` of `win32/tip/tip_ref_count.h`, of
which only the test `tip_ref_count_test.cc` is among the sources. The count starts at 0. -/
structure TipRefCount where
  reference_count : Nat
  deriving DecidableEq, Repr

/-- Modelled from the spec: a freshly constructed `TipRefCount`, whose count is 0. -/
def TipRefCount.new : TipRefCount := { reference_count := 0 }

/-- Modelled from the spec: `TipRefCount::AddRefImpl` ("retain"), which adds 1 to the
count and returns the new count. -/
def TipRefCount.AddRefImpl (self : TipRefCount) : Nat × TipRefCount :=
  (self.reference_count + 1, { reference_count := self.reference_count + 1 })

/-- Modelled from the spec: `TipRefCount::ReleaseImpl` ("release"), which subtracts 1
from the count and returns the new count; a release on a count of 0 is clamped to 0. -/
def TipRefCount.ReleaseImpl (self : TipRefCount) : Nat × TipRefCount :=
  if self.reference_count = 0 then (0, self)
  else (self.reference_count - 1, { reference_count := self.reference_count - 1 })

/-- A call on a `TipRefCount`. -/
inductive RefCountCall where
  | AddRefImpl
  | ReleaseImpl
  deriving DecidableEq, Repr

/-- A sequence of calls on one `TipRefCount`: the values returned, in call order. -/
def TipRefCount.calls (self : TipRefCount) : List RefCountCall → List Nat
  | [] => []
  | RefCountCall.AddRefImpl :: rest =>
    self.AddRefImpl.1 :: TipRefCount.calls self.AddRefImpl.2 rest
  | RefCountCall.ReleaseImpl :: rest =>
    self.ReleaseImpl.1 :: TipRefCount.calls self.ReleaseImpl.2 rest

/-- The count that the specification prescribes after one more call: plus 1 on a
retain, minus 1 saturating at 0 on a release. -/
def countAfter (count : Nat) : RefCountCall → Nat
  | RefCountCall.AddRefImpl => count + 1
  | RefCountCall.ReleaseImpl => count - 1

/-! ## Sequences of cursor calls -/

/-- A call of `Next`, `Reset` or `Skip` on an enumerator. -/
inductive CursorCall where
  | Next (count : Nat)
  | Reset
  | Skip (count : Nat)
  deriving DecidableEq, Repr

/-- The enumerator after one call. -/
def EnumTfCandidatesImpl.call (self : EnumTfCandidatesImpl) : CursorCall → EnumTfCandidatesImpl
  | CursorCall.Next count => (self.Next count).self
  | CursorCall.Reset => self.Reset.2
  | CursorCall.Skip count => (self.Skip count).2

/-- A sequence of calls on one enumerator: the enumerator after each call, in call
order. -/
def EnumTfCandidatesImpl.calls (self : EnumTfCandidatesImpl) :
    List CursorCall → List EnumTfCandidatesImpl
  | [] => []
  | c :: rest => self.call c :: EnumTfCandidatesImpl.calls (self.call c) rest

/-! ## Scalar characters read from the end -/

/-- Widths of the scalar characters of a buffer, last character first, computed on the
reversed buffer: a low surrogate followed (in the reversed buffer) by a high surrogate is
one scalar character of width 2, every other unit is one scalar character of width 1. -/
def scalarWidthsBackward : WString → List Nat
  | [] => []
  | [_] => [1]
  | l :: h :: rest =>
    if IS_LOW_SURROGATE l && IS_HIGH_SURROGATE h then 2 :: scalarWidthsBackward rest
    else 1 :: scalarWidthsBackward (h :: rest)

/-! ## Sample hosts -/

/-- A host of the edit session on which every call succeeds, with the given static
status flags: the selection is `bc`, preceded by `a` and followed by `d`, and no
composition is found. -/
def sampleUpdaterHost (dwStaticFlags : Nat) : UpdaterHost :=
  { GetStatus := (S_OK, dwStaticFlags),
    composition := { As_ITfContextComposition := S_OK, FindComposition := S_OK, Next := [] },
    GetDefaultSelection := S_OK,
    GetText_selected := (S_OK, [0x62, 0x63]),
    SetSelection := S_OK,
    Clone_preceding := S_OK,
    Collapse_preceding := S_OK,
    ShiftStart_preceding := S_OK,
    GetText_preceding := (S_OK, [0x61]),
    Clone_following := S_OK,
    Collapse_following := S_OK,
    ShiftEnd_following := S_OK,
    GetText_following := (S_OK, [0x64]) }

/-- A window that supports `IMR_RECONVERTSTRING` and gives a buffer of 64 bytes that
decomposes into `a`, `b`, `c`, `d`, `e`. -/
def sampleImm32Host : Imm32Host :=
  { GetActiveView := (S_OK, true),
    GetWnd := S_OK,
    SendMessage_size := 64,
    SendMessage_fill := 64,
    Decompose := some { preceding_text := [0x61], preceding_composition := [0x62],
                        target := [0x63], following_composition := [0x64],
                        following_text := [0x65] } }

/-- A host whose context grants the edit session and has the given static status flags,
attached to the sample window. -/
def sampleReconversionHost (dwStaticFlags : Nat) : ReconversionHost :=
  { tsf := { RequestEditSession := { hr := S_OK, ran_session := none },
             session := sampleUpdaterHost dwStaticFlags },
    imm32 := sampleImm32Host }

/-- A host of the deletion session on which every call succeeds: the text before the
caret is `text`, and the second `ShiftStart` shifts by the count requested. -/
def sampleDeleterHost (text : WString) : DeleterHost :=
  { GetDefaultSelection := S_OK,
    Clone := S_OK,
    Collapse := S_OK,
    ShiftStart_initial := S_OK,
    GetText := (S_OK, text),
    ShiftStart_final := fun count => (S_OK, count),
    SetText := S_OK }

/-- A host whose context grants the edit session and runs `sampleDeleterHost`. -/
def sampleDeleteHost (text : WString) : DeleteHost :=
  { RequestEditSession := { hr := S_OK, ran_session := none },
    session := sampleDeleterHost text }

/-- A host on which both reconversion paths fail: the context refuses the edit session
and the attached window does not support `IMR_RECONVERTSTRING`. -/
def sampleFailingReconversionHost : ReconversionHost :=
  { tsf := { RequestEditSession := { hr := E_FAIL, ran_session := some S_OK },
             session := sampleUpdaterHost 0 },
    imm32 := { sampleImm32Host with SendMessage_size := 0 } }

/-- A host of the edit session on which the selection is found and read, but the range
cloned for the preceding text cannot be shifted. -/
def samplePrecedingFailureHost : UpdaterHost :=
  { sampleUpdaterHost 0 with ShiftStart_preceding := E_FAIL }

/-- A host whose context grants and runs the edit session and would find the default
selection, but cannot give its status. -/
def sampleStatusFailureHost : TsfHost :=
  { RequestEditSession := { hr := S_OK, ran_session := none },
    session := { sampleUpdaterHost 0 with GetStatus := (E_FAIL, 0) } }

/-- A host whose context grants and runs the edit session, on which every call
succeeds. -/
def sampleTsfHost : TsfHost :=
  { RequestEditSession := { hr := S_OK, ran_session := none },
    session := sampleUpdaterHost 0 }

/-! ## Theorems: text measurement -/

theorem not_low_of_high (c : Nat) (h : IS_HIGH_SURROGATE c = true) :
    IS_LOW_SURROGATE c = false := by
  simp only [IS_HIGH_SURROGATE, IS_LOW_SURROGATE, Bool.and_eq_true, decide_eq_true_eq,
    Bool.and_eq_false_imp] at *
  intro h1
  simp
  omega

/-- Appending a surrogate pair to a buffer appends one scalar character of width 2. -/
theorem scalarWidths_append_pair (h c : Nat) (hh : IS_HIGH_SURROGATE h = true)
    (hc : IS_LOW_SURROGATE c = true) (B : WString) :
    scalarWidths (B ++ [h, c]) = scalarWidths B ++ [2] := by
  induction B using scalarWidths.induct with
  | case1 => simp [scalarWidths, hh, hc]
  | case2 x => simp [scalarWidths, hh, hc, not_low_of_high h hh]
  | case3 x y rest hxy ih => simp [scalarWidths, hxy, ih]
  | case4 x y rest hxy ih =>
    rw [List.cons_append] at ih
    simp [scalarWidths, hxy, ih]

/-- Appending a unit that does not complete a surrogate pair appends one scalar character
of width 1. -/
theorem scalarWidths_append_single (h c : Nat)
    (hn : (IS_HIGH_SURROGATE h && IS_LOW_SURROGATE c) = false) (B : WString) :
    scalarWidths (B ++ [h, c]) = scalarWidths (B ++ [h]) ++ [1] := by
  induction B using scalarWidths.induct with
  | case1 => simp [scalarWidths, hn]
  | case2 x =>
    by_cases hx : (IS_HIGH_SURROGATE x && IS_LOW_SURROGATE h) = true
    · simp [scalarWidths, hx]
    · simp [scalarWidths, hx, hn]
  | case3 x y rest hxy ih => simp [scalarWidths, hxy, ih]
  | case4 x y rest hxy ih =>
    rw [List.cons_append] at ih
    simp [scalarWidths, hxy, ih]

theorem getD_append_mid (R S : WString) (x : Nat) (n : Nat) (hn : n = R.length) :
    (R ++ x :: S).getD n 0 = x := by
  subst hn
  induction R with
  | nil => rfl
  | cons a R ih => simpa using ih

theorem measureStep_first (c : Nat) (S : WString) :
    measureStep (c :: S) S.length = S.length + 1 := by
  simp [measureStep]

theorem measureStep_pair (R S : WString) (h c : Nat) (hh : IS_HIGH_SURROGATE h = true)
    (hc : IS_LOW_SURROGATE c = true) :
    measureStep (R ++ h :: c :: S) S.length = S.length + 2 := by
  have e1 : (R ++ h :: c :: S).getD ((R ++ h :: c :: S).length - (S.length + 1)) 0 = c := by
    have := getD_append_mid (R ++ [h]) S c ((R ++ h :: c :: S).length - (S.length + 1))
      (by simp; omega)
    simpa using this
  have e2 : (R ++ h :: c :: S).getD ((R ++ h :: c :: S).length - (S.length + 1) - 1) 0 = h :=
    getD_append_mid R (c :: S) h _ (by simp; omega)
  have e3 : S.length + 1 + 1 ≤ (R ++ h :: c :: S).length := by simp
  simp only [measureStep, e1, e2, hc, hh, e3, if_true]

theorem measureStep_single (R S : WString) (h c : Nat)
    (hn : (IS_HIGH_SURROGATE h && IS_LOW_SURROGATE c) = false) :
    measureStep (R ++ h :: c :: S) S.length = S.length + 1 := by
  have e1 : (R ++ h :: c :: S).getD ((R ++ h :: c :: S).length - (S.length + 1)) 0 = c := by
    have := getD_append_mid (R ++ [h]) S c ((R ++ h :: c :: S).length - (S.length + 1))
      (by simp; omega)
    simpa using this
  have e2 : (R ++ h :: c :: S).getD ((R ++ h :: c :: S).length - (S.length + 1) - 1) 0 = h :=
    getD_append_mid R (c :: S) h _ (by simp; omega)
  simp only [measureStep, e1, e2]
  cases hl : IS_LOW_SURROGATE c
  · simp
  · have : IS_HIGH_SURROGATE h = false := by simpa [hl] using hn
    simp [this]

/-- Bookkeeping of one loop iteration: counting one more scalar character of width `wd`
in front of the walk over the widths `w`. -/
theorem measure_result_step (k num s wd L : Nat) (w : List Nat) (hk : ¬ k ≤ num) :
    (if k ≤ num + 1 then (s + wd, num + 1)
      else if k - (num + 1) ≤ w.length then
        (s + wd + ((w.reverse).take (k - (num + 1))).sum, k)
      else (L, num + 1 + w.length))
    = (if k - num ≤ (w ++ [wd]).length then
        (s + (((w ++ [wd]).reverse).take (k - num)).sum, k)
      else (L, num + (w ++ [wd]).length)) := by
  obtain ⟨m, hm⟩ : ∃ m, k - num = m + 1 := ⟨k - num - 1, by omega⟩
  have hm2 : k - (num + 1) = m := by omega
  rw [hm, hm2]
  simp only [List.reverse_append, List.reverse_cons, List.reverse_nil, List.nil_append,
    List.singleton_append, List.take_succ_cons, List.sum_cons, List.length_append,
    List.length_cons, List.length_nil]
  by_cases h1 : k ≤ num + 1
  · have hm0 : m = 0 := by omega
    subst hm0
    have hk1 : num + 1 = k := by omega
    simp [h1, hk1]
  · have h2 : (m + 1 ≤ w.length + (0 + 1)) ↔ (m ≤ w.length) := by omega
    simp only [h1, if_false, h2]
    split_ifs
    · simp; omega
    · simp; omega

/-- The loop of `MeasureCharactersBackward`, started after the suffix `S` has been
consumed with `num` scalar characters counted, walks the scalar characters of the
remaining prefix `P` from the back. -/
theorem measureLoop_spec (k : Nat) : ∀ (fuel : Nat) (P S : WString) (num : Nat),
    P.length < fuel →
    measureLoop (P ++ S) k fuel S.length num = some (
      if k ≤ num then (S.length, num)
      else if k - num ≤ (scalarWidths P).length then
        (S.length + (((scalarWidths P).reverse).take (k - num)).sum, k)
      else ((P ++ S).length, num + (scalarWidths P).length)) := by
  intro fuel
  induction fuel with
  | zero => intro P S num h; omega
  | succ fuel ih =>
    intro P S num hlt
    by_cases hk : k ≤ num
    · simp [measureLoop, hk]
    · rcases List.eq_nil_or_concat P with rfl | ⟨Q, c, hP⟩
      · have h0 : k - num ≠ 0 := by omega
        simp [measureLoop, hk, scalarWidths, h0]
      · rw [List.concat_eq_append] at hP
        subst hP
        have hguard : ¬ (S.length + 1 > (Q ++ [c] ++ S).length) := by simp
        simp only [measureLoop, ge_iff_le, hk, if_false, hguard]
        rcases List.eq_nil_or_concat Q with rfl | ⟨R, h, hQ⟩
        · have key := ih [] (c :: S) (num + 1) (by simp at hlt ⊢; omega)
          simp only [List.nil_append, List.length_cons] at key
          simp only [List.nil_append, List.singleton_append, measureStep_first, key]
          have := measure_result_step k num S.length 1 (S.length + 1) [] hk
          simpa [scalarWidths] using this
        · rw [List.concat_eq_append] at hQ
          subst hQ
          have e : R ++ [h] ++ [c] ++ S = R ++ h :: c :: S := by simp
          have e2 : R ++ [h] ++ [c] = R ++ [h, c] := by simp
          rw [e]
          by_cases hp : (IS_HIGH_SURROGATE h && IS_LOW_SURROGATE c) = true
          · have hh : IS_HIGH_SURROGATE h = true := by simp at hp; exact hp.1
            have hc : IS_LOW_SURROGATE c = true := by simp at hp; exact hp.2
            have key := ih R (h :: c :: S) (num + 1) (by simp at hlt ⊢; omega)
            simp only [List.length_cons] at key
            rw [measureStep_pair R S h c hh hc, key]
            rw [e2, scalarWidths_append_pair h c hh hc R]
            have := measure_result_step k num S.length 2 (R ++ h :: c :: S).length
              (scalarWidths R) hk
            rw [← this]
          · have hn : (IS_HIGH_SURROGATE h && IS_LOW_SURROGATE c) = false := by
              simpa using hp
            have key := ih (R ++ [h]) (c :: S) (num + 1) (by simp at hlt ⊢; omega)
            have e3 : R ++ [h] ++ c :: S = R ++ h :: c :: S := by simp
            simp only [List.length_cons, e3] at key
            rw [measureStep_single R S h c hn, key]
            rw [e2, scalarWidths_append_single h c hn R]
            have := measure_result_step k num S.length 1 (R ++ h :: c :: S).length
              (scalarWidths (R ++ [h])) hk
            rw [← this]

/-- The outcome of `MeasureCharactersBackward` in terms of the scalar characters of the
buffer, for every buffer and count. -/
theorem MeasureCharactersBackward_eq (B : WString) (k : Nat) :
    MeasureCharactersBackward B k =
      if k ≤ scalarLength B then some (true, lastScalarsWidth B k) else some (false, 0) := by
  have h := measureLoop_spec k (B.length + 1) B [] 0 (by omega)
  simp only [List.append_nil, List.length_nil, Nat.zero_add, Nat.sub_zero] at h
  unfold MeasureCharactersBackward
  rw [h]
  by_cases hk0 : k ≤ 0
  · have : k = 0 := by omega
    subst this
    simp [lastScalarsWidth]
  · by_cases hk : k ≤ scalarLength B
    · have hk2 : k ≤ (scalarWidths B).length := hk
      simp [hk0, hk, hk2, lastScalarsWidth]
    · have hk2 : ¬ k ≤ (scalarWidths B).length := hk
      have hne : ¬ (scalarWidths B).length = k := by
        intro e
        exact hk2 (by omega)
      simp [hk0, hk, hk2, hne]

/-- C1. For every UTF-16 buffer `B` and every count `k` that is at most the number of
scalar characters of `B`, `MeasureCharactersBackward(B, k)` returns true and writes the
sum of the widths of the last `k` scalar characters of `B`; in particular a surrogate
pair measured with `k = 1` gives length 2 and a lone low surrogate gives length 1. -/
theorem MeasureCharactersBackward_within :
    (∀ (B : WString) (k : Nat), k ≤ scalarLength B →
      MeasureCharactersBackward B k = some (true, lastScalarsWidth B k)) ∧
    (∀ hi lo : Nat, IS_HIGH_SURROGATE hi = true → IS_LOW_SURROGATE lo = true →
      MeasureCharactersBackward [hi, lo] 1 = some (true, 2)) ∧
    (∀ lo : Nat, IS_LOW_SURROGATE lo = true →
      MeasureCharactersBackward [lo] 1 = some (true, 1)) := by
  refine ⟨?_, ?_, ?_⟩
  · intro B k hk
    rw [MeasureCharactersBackward_eq, if_pos hk]
  · intro hi lo hh hl
    rw [MeasureCharactersBackward_eq]
    simp [scalarLength, lastScalarsWidth, scalarWidths, hh, hl]
  · intro lo _
    rw [MeasureCharactersBackward_eq]
    simp [scalarLength, lastScalarsWidth, scalarWidths]

/-- Witness of C1 on the buffer `A`, U+1F600 (a surrogate pair), with `k = 2`. -/
theorem MeasureCharactersBackward_within_witness :
    2 ≤ scalarLength [0x41, 0xD83D, 0xDE00] ∧
    MeasureCharactersBackward [0x41, 0xD83D, 0xDE00] 2 = some (true, 3) :=
  ⟨by decide, MeasureCharactersBackward_within.1 [0x41, 0xD83D, 0xDE00] 2 (by decide)⟩

/-- C2. For every UTF-16 buffer `B` and every count `k` strictly greater than the number
of scalar characters of `B`, `MeasureCharactersBackward(B, k)` returns false and the
reported UTF-16 length is left at 0. -/
theorem MeasureCharactersBackward_insufficient (B : WString) (k : Nat)
    (hk : scalarLength B < k) :
    MeasureCharactersBackward B k = some (false, 0) := by
  rw [MeasureCharactersBackward_eq, if_neg (by omega)]

/-- Witness of C2: three scalar characters are asked of a buffer that holds two. -/
theorem MeasureCharactersBackward_insufficient_witness :
    scalarLength [0x41, 0xD83D, 0xDE00] < 3 ∧
    MeasureCharactersBackward [0x41, 0xD83D, 0xDE00] 3 = some (false, 0) :=
  ⟨by decide, MeasureCharactersBackward_insufficient [0x41, 0xD83D, 0xDE00] 3 (by decide)⟩

/-! ## Theorems: candidate enumeration -/

/-- Reading `f` consecutive entries of a list by index, starting at `p`, gives the
entries of `(l.drop p).take f` when they all exist. -/
theorem map_getD_range (l : List WString) (p f : Nat) (hf : f ≤ l.length - p) :
    (List.range f).map (fun j => l.getD (p + j) []) = (l.drop p).take f := by
  apply List.ext_getElem?
  intro j
  by_cases hj : j < f
  · have h1 : p + j < l.length := by omega
    simp [List.getElem?_map, List.getElem?_range, List.getElem?_take, List.getElem?_drop,
      hj, List.getD_eq_getElem?_getD, h1]
  · have h2 : f ≤ j := by omega
    simp [List.getElem?_map, List.getElem?_take, hj, h2]

/-- The loop of `Next`, from any iteration on. -/
theorem NextLoop_spec (count : Nat) : ∀ (n i : Nat) (self : EnumTfCandidatesImpl)
    (written : List CandidateStringImpl), i + n = count →
    EnumTfCandidatesImpl.NextLoop count n i self written =
      { hr := if n ≤ self.candidates_.length - self.current_ then S_OK else S_FALSE,
        candidate_string := written ++
          (List.range (min n (self.candidates_.length - self.current_))).map
            (fun j => { index_ := self.current_ + j,
                        value_ := self.candidates_.getD (self.current_ + j) [] }),
        fetched_count := i + min n (self.candidates_.length - self.current_),
        self := { self with
          current_ := self.current_ + min n (self.candidates_.length - self.current_) } } := by
  intro n
  induction n with
  | zero =>
    intro i self written h
    simp [EnumTfCandidatesImpl.NextLoop]
    omega
  | succ n ih =>
    intro i self written h
    by_cases hc : self.current_ ≥ self.candidates_.length
    · have h0 : self.candidates_.length - self.current_ = 0 := by omega
      simp [EnumTfCandidatesImpl.NextLoop, hc, h0]
    · have hc2 : ¬ self.candidates_.length ≤ self.current_ := by omega
      rw [EnumTfCandidatesImpl.NextLoop]
      simp only [ge_iff_le, hc2, if_false]
      rw [ih (i + 1) _ _ (by omega)]
      have hmin : min (n + 1) (self.candidates_.length - self.current_)
          = min n (self.candidates_.length - (self.current_ + 1)) + 1 := by omega
      have hle : (n ≤ self.candidates_.length - (self.current_ + 1))
          ↔ (n + 1 ≤ self.candidates_.length - self.current_) := by omega
      simp only [hmin, hle, List.range_succ_eq_map, List.map_cons, List.map_map,
        List.append_assoc, List.singleton_append, Nat.add_zero]
      congr 1
      · congr 2
        apply List.map_congr_left
        intro j _
        simp [Nat.add_assoc, Nat.add_comm 1 j]
      · omega
      · congr 1
        omega

/-- C3. For a cursor at position `p` over `N` candidates and a requested count `c`,
`Next(c)` writes exactly `f = min(c, N - p)` items, which are the candidates
`p, ..., p+f-1` in order, each carrying its own list index; it reports `f` as fetched
count, moves the position to `p + f`, and returns `S_OK` exactly when `c <= N - p` and
`S_FALSE` (which is not a failure) otherwise. -/
theorem Next_spec (self : EnumTfCandidatesImpl) (c : Nat) :
    (self.Next c).candidate_string.length = min c (self.candidates_.length - self.current_) ∧
    (self.Next c).candidate_string.map (fun s => s.value_) =
      (self.candidates_.drop self.current_).take
        (min c (self.candidates_.length - self.current_)) ∧
    (self.Next c).candidate_string.map (fun s => s.index_) =
      List.range' self.current_ (min c (self.candidates_.length - self.current_)) ∧
    (self.Next c).fetched_count = min c (self.candidates_.length - self.current_) ∧
    (self.Next c).self.current_ =
      self.current_ + min c (self.candidates_.length - self.current_) ∧
    (self.Next c).self.candidates_ = self.candidates_ ∧
    ((self.Next c).hr = S_OK ↔ c ≤ self.candidates_.length - self.current_) ∧
    ((self.Next c).hr = S_FALSE ↔ ¬ c ≤ self.candidates_.length - self.current_) ∧
    FAILED (self.Next c).hr = false := by
  unfold EnumTfCandidatesImpl.Next
  rw [NextLoop_spec c c 0 self [] (by omega)]
  refine ⟨by simp, ?_, ?_, by simp, rfl, rfl, ?_, ?_, ?_⟩
  · simp only [List.nil_append, List.map_map]
    exact map_getD_range self.candidates_ self.current_ _ (by omega)
  · simp only [List.nil_append, List.map_map]
    rw [List.range'_eq_map_range]
    rfl
  · by_cases h : c ≤ self.candidates_.length - self.current_ <;> simp [h, S_OK, S_FALSE]
  · by_cases h : c ≤ self.candidates_.length - self.current_ <;> simp [h, S_OK, S_FALSE]
  · by_cases h : c ≤ self.candidates_.length - self.current_ <;>
      simp [h, S_OK, S_FALSE, FAILED]

/-- C4. For a cursor at a position `p <= N`, `Skip(c)` moves to `p + c` and returns
`S_OK` when `c <= N - p`, and otherwise moves to `N` and returns `S_FALSE`; so on a
fresh cursor `Skip(a)` followed by `Next(1)` fetches the candidate of index `a`
whenever `a < N`. -/
theorem Skip_spec :
    (∀ (self : EnumTfCandidatesImpl) (c : Nat),
      self.current_ ≤ self.candidates_.length →
      (c ≤ self.candidates_.length - self.current_ →
        self.Skip c = (S_OK, { self with current_ := self.current_ + c })) ∧
      (¬ c ≤ self.candidates_.length - self.current_ →
        self.Skip c = (S_FALSE, { self with current_ := self.candidates_.length }))) ∧
    (∀ (candidates : List WString) (a : Nat) (h : a < candidates.length),
      ((EnumTfCandidatesImpl.new candidates).Skip a).1 = S_OK ∧
      (((EnumTfCandidatesImpl.new candidates).Skip a).2.Next 1).hr = S_OK ∧
      (((EnumTfCandidatesImpl.new candidates).Skip a).2.Next 1).fetched_count = 1 ∧
      (((EnumTfCandidatesImpl.new candidates).Skip a).2.Next 1).candidate_string =
        [{ index_ := a, value_ := candidates[a] }]) := by
  constructor
  · intro self c _
    constructor
    · intro h
      have : ¬ (self.candidates_.length - self.current_ < c) := by omega
      simp [EnumTfCandidatesImpl.Skip, this]
    · intro h
      have : self.candidates_.length - self.current_ < c := by omega
      simp [EnumTfCandidatesImpl.Skip, this]
  · intro candidates a h
    have h1 : ¬ (candidates.length < a) := by omega
    have h2 : ¬ (candidates.length ≤ a) := by omega
    simp [EnumTfCandidatesImpl.Skip, EnumTfCandidatesImpl.new, EnumTfCandidatesImpl.Next,
      EnumTfCandidatesImpl.NextLoop, h1, h2, List.getD_eq_getElem?_getD, h]

/-- Witness of C4: a cursor at position 1 over three candidates skips 1. -/
theorem Skip_spec_witness :
    (1 : Nat) ≤ [[0x61], [0x62], [0x63]].length ∧
    (EnumTfCandidatesImpl.mk [[0x61], [0x62], [0x63]] 1).Skip 1 =
      (S_OK, EnumTfCandidatesImpl.mk [[0x61], [0x62], [0x63]] 2) :=
  ⟨by decide,
    ((Skip_spec.1 (EnumTfCandidatesImpl.mk [[0x61], [0x62], [0x63]] 1) 1 (by decide)).1
      (by decide))⟩

/-- C5, evaluated on the code: a cursor over three candidates that has fetched one item
is at position 1; its `Clone` is at position 0, and `Next(1)` on the clone fetches the
candidate of index 0 where `Next(1)` on the source fetches the candidate of index 1. -/
theorem Clone_resets_position :
    ((EnumTfCandidatesImpl.new [[0x61], [0x62], [0x63]]).Next 1).self.current_ = 1 ∧
    (((EnumTfCandidatesImpl.new [[0x61], [0x62], [0x63]]).Next 1).self.Clone).2.current_ = 0 ∧
    ((((EnumTfCandidatesImpl.new [[0x61], [0x62], [0x63]]).Next 1).self.Clone).2.Next 1
      ).candidate_string = [{ index_ := 0, value_ := [0x61] }] ∧
    ((((EnumTfCandidatesImpl.new [[0x61], [0x62], [0x63]]).Next 1).self).Next 1
      ).candidate_string = [{ index_ := 1, value_ := [0x62] }] := by
  decide

/-- C6. `GetCandidate(i)` fails if and only if `i >= N`; for `i < N` it succeeds with a
candidate-string object whose text is `candidates[i]` and whose reported index is `i`.
With five candidates, index 5 fails and index 4 succeeds. -/
theorem GetCandidate_spec :
    (∀ (self : CandidateListImpl) (i : Nat),
      (FAILED (self.GetCandidate i).1 = true ↔ i ≥ self.candidates_.length) ∧
      (i ≥ self.candidates_.length → self.GetCandidate i = (E_FAIL, none)) ∧
      (∀ h : i < self.candidates_.length,
        self.GetCandidate i = (S_OK, some { index_ := i, value_ := self.candidates_[i] }) ∧
        ∃ s, (self.GetCandidate i).2 = some s ∧
          s.GetString = (S_OK, self.candidates_[i]) ∧ s.GetIndex = (S_OK, i))) ∧
    (∀ self : CandidateListImpl, self.candidates_.length = 5 →
      FAILED (self.GetCandidate 5).1 = true ∧ SUCCEEDED (self.GetCandidate 4).1 = true) := by
  have key : ∀ (self : CandidateListImpl) (i : Nat),
      (FAILED (self.GetCandidate i).1 = true ↔ i ≥ self.candidates_.length) := by
    intro self i
    by_cases h : i ≥ self.candidates_.length
    · simp [CandidateListImpl.GetCandidate, h, FAILED, E_FAIL]
    · simp [CandidateListImpl.GetCandidate, h, FAILED, S_OK]
  refine ⟨fun self i => ⟨key self i, ?_, ?_⟩, ?_⟩
  · intro h
    simp [CandidateListImpl.GetCandidate, h]
  · intro h
    have h2 : ¬ (self.candidates_.length ≤ i) := by omega
    simp [CandidateListImpl.GetCandidate, h2, List.getD_eq_getElem?_getD, h,
      CandidateStringImpl.GetString, CandidateStringImpl.GetIndex]
  · intro self h5
    refine ⟨(key self 5).2 (by omega), ?_⟩
    simp [CandidateListImpl.GetCandidate, h5, SUCCEEDED, S_OK]

/-- Witness of C6: index 1 of a list of three candidates. -/
theorem GetCandidate_spec_witness :
    (1 : Nat) < [[0x61], [0x62], [0x63]].length ∧
    (TipCandidateList.New [[0x61], [0x62], [0x63]] none).GetCandidate 1 =
      (S_OK, some { index_ := 1, value_ := [0x62] }) :=
  ⟨by decide,
    ((GetCandidate_spec.1 (TipCandidateList.New [[0x61], [0x62], [0x63]] none) 1).2.2
      (by decide)).1⟩

/-! ## Theorems: finalization callback -/

/-- Once the registration is cleared, no `SetResult` call invokes anything and the list
object stays as it is. -/
theorem SetResults_cleared (candidates : List WString) :
    ∀ (calls : List (Nat × TfCandidateResult)) (j : Nat) (o : SetResultOutcome),
      ((CandidateListImpl.mk candidates none).SetResults calls)[j]? = some o →
      o.calls = [] ∧ o.self = CandidateListImpl.mk candidates none := by
  intro calls
  induction calls with
  | nil => intro j o h; simp [CandidateListImpl.SetResults] at h
  | cons x rest ih =>
    intro j o h
    obtain ⟨i, r⟩ := x
    have hs : ((CandidateListImpl.mk candidates none).SetResult i r).calls = [] ∧
        ((CandidateListImpl.mk candidates none).SetResult i r).self
          = CandidateListImpl.mk candidates none := by
      unfold CandidateListImpl.SetResult
      split_ifs
      · exact ⟨rfl, rfl⟩
      · cases r <;> exact ⟨rfl, rfl⟩
    cases j with
    | zero =>
      simp only [CandidateListImpl.SetResults, List.getElem?_cons_zero, Option.some.injEq] at h
      subst h
      exact hs
    | succ j =>
      simp only [CandidateListImpl.SetResults, List.getElem?_cons_succ, hs.2] at h
      exact ih j o h

/-- One `SetResult` call on a list whose callback is registered. -/
theorem SetResult_registered (candidates : List WString) (cb : TipCandidateListCallback)
    (i : Nat) (r : TfCandidateResult) :
    (finalizesCandidate candidates.length (i, r) →
      ((CandidateListImpl.mk candidates (some cb)).SetResult i r).calls =
          [{ callback := cb, index := i, candidate := candidates.getD i [] }] ∧
      ((CandidateListImpl.mk candidates (some cb)).SetResult i r).self =
          CandidateListImpl.mk candidates none) ∧
    (¬ finalizesCandidate candidates.length (i, r) →
      ((CandidateListImpl.mk candidates (some cb)).SetResult i r).calls = [] ∧
      ((CandidateListImpl.mk candidates (some cb)).SetResult i r).self =
          CandidateListImpl.mk candidates (some cb)) := by
  unfold finalizesCandidate CandidateListImpl.SetResult
  constructor
  · rintro ⟨hr, hi⟩
    simp only at hr hi
    subst hr
    have : ¬ candidates.length ≤ i := by omega
    simp [this]
  · intro hn
    by_cases hi : candidates.length ≤ i
    · simp [hi]
    · have hr : r ≠ TfCandidateResult.CAND_FINALIZED := by
        intro e
        exact hn ⟨e, by simp only; omega⟩
      have hi2 : ¬ candidates.length ≤ i := hi
      cases r
      · exact absurd rfl hr
      · simp [hi2]
      · simp [hi2]

/-- Total number of `OnFinalize` calls over a sequence of `SetResult` calls, for a list
whose registration is already cleared. -/
theorem SetResults_cleared_total (candidates : List WString) :
    ∀ calls : List (Nat × TfCandidateResult),
      (((CandidateListImpl.mk candidates none).SetResults calls).map
        (fun o => o.calls.length)).sum = 0 := by
  intro calls
  induction calls with
  | nil => rfl
  | cons x rest ih =>
    obtain ⟨i, r⟩ := x
    have hs : ((CandidateListImpl.mk candidates none).SetResult i r).calls = [] ∧
        ((CandidateListImpl.mk candidates none).SetResult i r).self
          = CandidateListImpl.mk candidates none := by
      unfold CandidateListImpl.SetResult
      split_ifs
      · exact ⟨rfl, rfl⟩
      · cases r <;> exact ⟨rfl, rfl⟩
    simp only [CandidateListImpl.SetResults, List.map_cons, List.sum_cons, hs.1, hs.2, ih,
      List.length_nil]

/-- Total number of `OnFinalize` calls over a sequence of `SetResult` calls, for a list
whose callback is registered. -/
theorem SetResults_registered_total (candidates : List WString)
    (cb : TipCandidateListCallback) :
    ∀ calls : List (Nat × TfCandidateResult),
      (((CandidateListImpl.mk candidates (some cb)).SetResults calls).map
        (fun o => o.calls.length)).sum ≤ 1 := by
  intro calls
  induction calls with
  | nil => simp [CandidateListImpl.SetResults]
  | cons x rest ih =>
    obtain ⟨i, r⟩ := x
    by_cases hf : finalizesCandidate candidates.length (i, r)
    · obtain ⟨h1, h2⟩ := (SetResult_registered candidates cb i r).1 hf
      simp only [CandidateListImpl.SetResults, List.map_cons, List.sum_cons, h1, h2,
        SetResults_cleared_total, List.length_singleton]
      omega
    · obtain ⟨h1, h2⟩ := (SetResult_registered candidates cb i r).2 hf
      simp only [CandidateListImpl.SetResults, List.map_cons, List.sum_cons, h1, h2,
        List.length_nil]
      omega

/-- The outcome of the call of position `j` in a sequence of `SetResult` calls on a list
whose callback is registered. -/
theorem SetResults_registered (candidates : List WString) (cb : TipCandidateListCallback) :
    ∀ (calls : List (Nat × TfCandidateResult)) (j : Nat) (c : Nat × TfCandidateResult)
      (o : SetResultOutcome),
      calls[j]? = some c →
      ((CandidateListImpl.mk candidates (some cb)).SetResults calls)[j]? = some o →
      (o.calls =
        if finalizesCandidate candidates.length c ∧
            ∀ c' ∈ calls.take j, ¬ finalizesCandidate candidates.length c' then
          [{ callback := cb, index := c.1, candidate := candidates.getD c.1 [] }]
        else []) ∧
      (o.self.callback_ =
        if ¬ finalizesCandidate candidates.length c ∧
            ∀ c' ∈ calls.take j, ¬ finalizesCandidate candidates.length c' then some cb
        else none) ∧
      o.self.candidates_ = candidates := by
  intro calls
  induction calls with
  | nil => intro j c o h; simp at h
  | cons x rest ih =>
    intro j c o hc ho
    obtain ⟨i, r⟩ := x
    by_cases hf : finalizesCandidate candidates.length (i, r)
    · obtain ⟨h1, h2⟩ := (SetResult_registered candidates cb i r).1 hf
      cases j with
      | zero =>
        simp only [List.getElem?_cons_zero, Option.some.injEq] at hc
        simp only [CandidateListImpl.SetResults, List.getElem?_cons_zero,
          Option.some.injEq] at ho
        subst hc ho
        simp [h1, h2, hf]
      | succ j =>
        simp only [CandidateListImpl.SetResults, List.getElem?_cons_succ, h2] at ho
        obtain ⟨e1, e2⟩ := SetResults_cleared candidates rest j o ho
        have hex : ¬ (¬ finalizesCandidate candidates.length c ∧
            ∀ c' ∈ List.take (j + 1) ((i, r) :: rest),
              ¬ finalizesCandidate candidates.length c') := by
          rintro ⟨_, h⟩
          exact h (i, r) (by simp) hf
        have hall : ¬ (finalizesCandidate candidates.length c ∧
            ∀ c' ∈ List.take (j + 1) ((i, r) :: rest),
              ¬ finalizesCandidate candidates.length c') := by
          rintro ⟨_, h⟩
          exact h (i, r) (by simp) hf
        rw [if_neg hall, if_neg hex, e1, e2]
        exact ⟨rfl, rfl, rfl⟩
    · obtain ⟨h1, h2⟩ := (SetResult_registered candidates cb i r).2 hf
      cases j with
      | zero =>
        simp only [List.getElem?_cons_zero, Option.some.injEq] at hc
        simp only [CandidateListImpl.SetResults, List.getElem?_cons_zero,
          Option.some.injEq] at ho
        subst hc ho
        simp [h1, h2, hf]
      | succ j =>
        simp only [CandidateListImpl.SetResults, List.getElem?_cons_succ, h2] at ho
        simp only [List.getElem?_cons_succ] at hc
        obtain ⟨e1, e2, e3⟩ := ih j c o hc ho
        refine ⟨?_, ?_, e3⟩
        · rw [e1]
          simp only [List.take_succ_cons, List.mem_cons, forall_eq_or_imp, hf,
            not_false_eq_true, true_and]
        · rw [e2]
          simp only [List.take_succ_cons, List.mem_cons, forall_eq_or_imp, hf,
            not_false_eq_true, true_and]

/-- Every `SetResult` call of a sequence has an outcome. -/
theorem SetResults_length : ∀ (calls : List (Nat × TfCandidateResult))
    (self : CandidateListImpl), (self.SetResults calls).length = calls.length := by
  intro calls
  induction calls with
  | nil => intro self; rfl
  | cons x rest ih =>
    intro self
    simp [CandidateListImpl.SetResults, ih]

/-- C7. For a candidate list created with a registered callback and any finite sequence
of `SetResult` calls, the callback is invoked at most once in total: exactly at the
first call with `CAND_FINALIZED` and `index < N`, with arguments
`(index, candidates[index])`; from that call on the registration is cleared, before it
the registration is in place; and a call with another result kind never invokes the
callback and leaves the list object as it is. -/
theorem SetResult_callback_once (candidates : List WString) (cb : TipCandidateListCallback)
    (calls : List (Nat × TfCandidateResult)) :
    ((TipCandidateList.New candidates (some cb)).SetResults calls).length = calls.length ∧
    (((TipCandidateList.New candidates (some cb)).SetResults calls).map
      (fun o => o.calls.length)).sum ≤ 1 ∧
    (∀ (j : Nat) (c : Nat × TfCandidateResult) (o : SetResultOutcome),
      calls[j]? = some c →
      ((TipCandidateList.New candidates (some cb)).SetResults calls)[j]? = some o →
      (o.calls =
        if finalizesCandidate candidates.length c ∧
            ∀ c' ∈ calls.take j, ¬ finalizesCandidate candidates.length c' then
          [{ callback := cb, index := c.1, candidate := candidates.getD c.1 [] }]
        else []) ∧
      (o.self.callback_ =
        if ¬ finalizesCandidate candidates.length c ∧
            ∀ c' ∈ calls.take j, ¬ finalizesCandidate candidates.length c' then some cb
        else none) ∧
      o.self.candidates_ = candidates) ∧
    (∀ (self : CandidateListImpl) (index : Nat) (r : TfCandidateResult),
      r ≠ TfCandidateResult.CAND_FINALIZED →
      (self.SetResult index r).calls = [] ∧ (self.SetResult index r).self = self) := by
  refine ⟨SetResults_length calls _, SetResults_registered_total candidates cb calls,
    SetResults_registered candidates cb calls, ?_⟩
  intro self index r hr
  unfold CandidateListImpl.SetResult
  split_ifs
  · exact ⟨rfl, rfl⟩
  · cases r
    · exact absurd rfl hr
    · exact ⟨rfl, rfl⟩
    · exact ⟨rfl, rfl⟩

/-- Witness of C7: on three candidates, the calls `SetResult(2, CAND_SELECTED)`,
`SetResult(2, CAND_FINALIZED)`, `SetResult(2, CAND_FINALIZED)`; the second call invokes
the callback with `(2, candidates[2])` and clears the registration. -/
theorem SetResult_callback_once_witness :
    [(2, TfCandidateResult.CAND_SELECTED), (2, TfCandidateResult.CAND_FINALIZED),
      (2, TfCandidateResult.CAND_FINALIZED)][1]? = some (2, TfCandidateResult.CAND_FINALIZED) ∧
    ((TipCandidateList.New [[0x61], [0x62], [0x63]] (some 7)).SetResults
      [(2, TfCandidateResult.CAND_SELECTED), (2, TfCandidateResult.CAND_FINALIZED),
        (2, TfCandidateResult.CAND_FINALIZED)])[1]? =
      some { hr := S_OK, calls := [{ callback := 7, index := 2, candidate := [0x63] }],
             self := { candidates_ := [[0x61], [0x62], [0x63]], callback_ := none } } ∧
    (SetResultOutcome.mk S_OK [{ callback := 7, index := 2, candidate := [0x63] }]
        { candidates_ := [[0x61], [0x62], [0x63]], callback_ := none }).self.callback_ =
      none :=
  ⟨by decide, by decide,
    ((SetResult_callback_once [[0x61], [0x62], [0x63]] 7
      [(2, TfCandidateResult.CAND_SELECTED), (2, TfCandidateResult.CAND_FINALIZED),
        (2, TfCandidateResult.CAND_FINALIZED)]).2.2.1 1 (2, TfCandidateResult.CAND_FINALIZED)
      (SetResultOutcome.mk S_OK [{ callback := 7, index := 2, candidate := [0x63] }]
        { candidates_ := [[0x61], [0x62], [0x63]], callback_ := none })
      (by decide) (by decide)).2.1⟩

/-- C8. `SetResult(index, result)` returns `E_INVALIDARG` if and only if `index >= N`,
and then the callback is not invoked and the list object (its registration included) is
unchanged; for `index < N` it returns `S_OK` whatever the result kind. -/
theorem SetResult_invalid_index (self : CandidateListImpl) (index : Nat)
    (r : TfCandidateResult) :
    ((self.SetResult index r).hr = E_INVALIDARG ↔ index ≥ self.candidates_.length) ∧
    (index ≥ self.candidates_.length →
      (self.SetResult index r).calls = [] ∧ (self.SetResult index r).self = self) ∧
    (index < self.candidates_.length → (self.SetResult index r).hr = S_OK) := by
  have hok : index < self.candidates_.length → (self.SetResult index r).hr = S_OK := by
    intro h
    have h2 : ¬ self.candidates_.length ≤ index := by omega
    unfold CandidateListImpl.SetResult
    rw [if_neg h2]
    split <;> rfl
  refine ⟨⟨?_, ?_⟩, ?_, hok⟩
  · intro h
    by_contra hlt
    have := hok (by omega)
    rw [this] at h
    exact absurd h (by decide)
  · intro h
    simp [CandidateListImpl.SetResult, h]
  · intro h
    simp [CandidateListImpl.SetResult, h]

/-- Witness of C8: index 3 on three candidates, with a registered callback. -/
theorem SetResult_invalid_index_witness :
    3 ≥ (TipCandidateList.New [[0x61], [0x62], [0x63]] (some 7)).candidates_.length ∧
    ((TipCandidateList.New [[0x61], [0x62], [0x63]] (some 7)).SetResult 3
        TfCandidateResult.CAND_FINALIZED).calls = [] ∧
    ((TipCandidateList.New [[0x61], [0x62], [0x63]] (some 7)).SetResult 3
        TfCandidateResult.CAND_FINALIZED).self =
      TipCandidateList.New [[0x61], [0x62], [0x63]] (some 7) :=
  ⟨by decide,
    (SetResult_invalid_index (TipCandidateList.New [[0x61], [0x62], [0x63]] (some 7)) 3
      TfCandidateResult.CAND_FINALIZED).2.1 (by decide)⟩

/-! ## Theorems: reconversion -/

/-- The calls of a guarded side read are among the four calls it can make. -/
theorem readSide_calls (clone collapse shift : HRESULT) (getText : HRESULT × WString)
    (collapseCall shiftCall : HostCall) (c : HostCall)
    (hc : c ∈ (readSide clone collapse shift getText collapseCall shiftCall).2) :
    c = HostCall.Clone ∨ c = collapseCall ∨ c = shiftCall ∨ c = HostCall.GetText := by
  unfold readSide at hc
  split_ifs at hc <;> simp at hc <;> tauto

/-- An edit session of `SurroudingTextUpdater` makes no call of the legacy path. -/
theorem DoEditSession_not_legacy (host : UpdaterHost) (move_anchor : Bool) (c : HostCall)
    (hc : c ∈ (SurroudingTextUpdater.DoEditSession host move_anchor).calls) :
    c.isLegacy = false := by
  unfold SurroudingTextUpdater.DoEditSession at hc
  simp only at hc
  split_ifs at hc
  · simp at hc; subst hc; rfl
  · simp at hc; casesm* _ ∨ _ <;> subst_vars <;> rfl
  · simp at hc; casesm* _ ∨ _ <;> subst_vars <;> rfl
  · simp only [List.mem_append] at hc
    rcases hc with (hc | hc) | hc
    · simp at hc; casesm* _ ∨ _ <;> subst_vars <;> rfl
    · rcases readSide_calls _ _ _ _ _ _ c hc with rfl | rfl | rfl | rfl <;> rfl
    · rcases readSide_calls _ _ _ _ _ _ c hc with rfl | rfl | rfl | rfl <;> rfl
  · simp only [List.mem_append] at hc
    rcases hc with (hc | hc) | hc
    · simp at hc; casesm* _ ∨ _ <;> subst_vars <;> rfl
    · rcases readSide_calls _ _ _ _ _ _ c hc with rfl | rfl | rfl | rfl <;> rfl
    · rcases readSide_calls _ _ _ _ _ _ c hc with rfl | rfl | rfl | rfl <;> rfl

/-- The primary path makes no call of the legacy path. -/
theorem PrepareForReconversionTSF_not_legacy (host : TsfHost) (info : TipSurroundingTextInfo)
    (c : HostCall) (hc : c ∈ (PrepareForReconversionTSF host info).calls) :
    c.isLegacy = false := by
  have hcalls : (PrepareForReconversionTSF host info).calls =
      HostCall.RequestEditSession (Nat.lor TF_ES_SYNC TF_ES_READWRITE) ::
        (match host.RequestEditSession.ran_session with
          | none => SurroudingTextUpdater.DoEditSession host.session true
          | some written =>
            { hr := written, result_ := TipSurroundingTextInfo.new, calls := [] }).calls := by
    unfold PrepareForReconversionTSF
    simp only
    split_ifs <;> rfl
  rw [hcalls] at hc
  rcases List.mem_cons.1 hc with rfl | hc
  · rfl
  · cases hran : host.RequestEditSession.ran_session with
    | none =>
      rw [hran] at hc
      exact DoEditSession_not_legacy host.session true c hc
    | some written =>
      rw [hran] at hc
      simp at hc

/-- The legacy path starts by asking the context for its active view. -/
theorem PrepareForReconversionIMM32_attempted (host : Imm32Host)
    (info : TipSurroundingTextInfo) :
    HostCall.GetActiveView ∈ (PrepareForReconversionIMM32 host info).calls := by
  unfold PrepareForReconversionIMM32
  simp only
  split_ifs
  any_goals simp
  split <;> simp

/-- When the legacy path succeeds, the snapshot it writes is built from the decomposed
buffer alone. -/
theorem PrepareForReconversionIMM32_ok (host : Imm32Host) (info : TipSurroundingTextInfo)
    (h : (PrepareForReconversionIMM32 host info).ok = true) :
    ∃ d, host.Decompose = some d ∧
      (PrepareForReconversionIMM32 host info).info =
        { preceding_text := d.preceding_text,
          selected_text := d.preceding_composition ++ d.target ++ d.following_composition,
          following_text := d.following_text,
          has_preceding_text := true, has_selected_text := true, has_following_text := true,
          is_transitory := false, in_composition := false } := by
  unfold PrepareForReconversionIMM32 at h ⊢
  simp only at h ⊢
  split_ifs at h ⊢
  any_goals simp at h
  cases hd : host.Decompose with
  | none => simp [hd] at h
  | some d => exact ⟨d, rfl, rfl⟩

/-- The body of `PrepareForReconversionFromIme` once the primary path has not given a
non-transitory snapshot. -/
theorem PrepareForReconversionFromIme_of_fallback (host : ReconversionHost)
    (hcond : ((PrepareForReconversionTSF host.tsf TipSurroundingTextInfo.new).ok &&
      !(PrepareForReconversionTSF host.tsf TipSurroundingTextInfo.new).info.is_transitory)
        = false) :
    PrepareForReconversionFromIme host =
      { ok := (PrepareForReconversionIMM32 host.imm32
          (PrepareForReconversionTSF host.tsf TipSurroundingTextInfo.new).info).ok,
        info := (PrepareForReconversionIMM32 host.imm32
          (PrepareForReconversionTSF host.tsf TipSurroundingTextInfo.new).info).info,
        need_async_reconversion := (PrepareForReconversionIMM32 host.imm32
          (PrepareForReconversionTSF host.tsf TipSurroundingTextInfo.new).info).ok,
        calls := (PrepareForReconversionTSF host.tsf TipSurroundingTextInfo.new).calls ++
          (PrepareForReconversionIMM32 host.imm32
            (PrepareForReconversionTSF host.tsf TipSurroundingTextInfo.new).info).calls } := by
  unfold PrepareForReconversionFromIme
  simp only [hcond, Bool.false_eq_true, if_false]
  cases h : (PrepareForReconversionIMM32 host.imm32
    (PrepareForReconversionTSF host.tsf TipSurroundingTextInfo.new).info).ok <;> simp

/-- C9. In `PrepareForReconversionFromIme`, when the primary TSF path succeeds with
`is_transitory = true`, the legacy IMM32 path is attempted and decides the outcome, so a
transitory snapshot is never returned with success; and whenever the legacy path is
reached and succeeds, the call returns true with `need_async_reconversion = true` and a
snapshot whose `selected_text` is preceding-composition + target +
following-composition, `is_transitory` and `in_composition` are false, and the three
`has_*` flags are true with the preceding and following text of the decomposed buffer. -/
theorem PrepareForReconversionFromIme_fallback (host : ReconversionHost) :
    ((PrepareForReconversionTSF host.tsf TipSurroundingTextInfo.new).ok = true →
      (PrepareForReconversionTSF host.tsf TipSurroundingTextInfo.new).info.is_transitory = true →
      HostCall.GetActiveView ∈ (PrepareForReconversionFromIme host).calls ∧
      (PrepareForReconversionFromIme host).ok =
        (PrepareForReconversionIMM32 host.imm32
          (PrepareForReconversionTSF host.tsf TipSurroundingTextInfo.new).info).ok ∧
      ((PrepareForReconversionFromIme host).ok = true →
        (PrepareForReconversionFromIme host).info.is_transitory = false)) ∧
    (¬ ((PrepareForReconversionTSF host.tsf TipSurroundingTextInfo.new).ok = true ∧
        (PrepareForReconversionTSF host.tsf TipSurroundingTextInfo.new).info.is_transitory
          = false) →
      (PrepareForReconversionIMM32 host.imm32
        (PrepareForReconversionTSF host.tsf TipSurroundingTextInfo.new).info).ok = true →
      ∃ d, host.imm32.Decompose = some d ∧
        (PrepareForReconversionFromIme host).ok = true ∧
        (PrepareForReconversionFromIme host).need_async_reconversion = true ∧
        (PrepareForReconversionFromIme host).info =
          { preceding_text := d.preceding_text,
            selected_text := d.preceding_composition ++ d.target ++ d.following_composition,
            following_text := d.following_text,
            has_preceding_text := true, has_selected_text := true,
            has_following_text := true,
            is_transitory := false, in_composition := false }) := by
  have hreach : ¬ ((PrepareForReconversionTSF host.tsf TipSurroundingTextInfo.new).ok = true ∧
        (PrepareForReconversionTSF host.tsf TipSurroundingTextInfo.new).info.is_transitory
          = false) →
      (PrepareForReconversionIMM32 host.imm32
        (PrepareForReconversionTSF host.tsf TipSurroundingTextInfo.new).info).ok = true →
      ∃ d, host.imm32.Decompose = some d ∧
        (PrepareForReconversionFromIme host).ok = true ∧
        (PrepareForReconversionFromIme host).need_async_reconversion = true ∧
        (PrepareForReconversionFromIme host).info =
          { preceding_text := d.preceding_text,
            selected_text := d.preceding_composition ++ d.target ++ d.following_composition,
            following_text := d.following_text,
            has_preceding_text := true, has_selected_text := true,
            has_following_text := true,
            is_transitory := false, in_composition := false } := by
    intro hno hok
    obtain ⟨d, hd, hinfo⟩ := PrepareForReconversionIMM32_ok host.imm32 _ hok
    have hcond : ((PrepareForReconversionTSF host.tsf TipSurroundingTextInfo.new).ok &&
        !(PrepareForReconversionTSF host.tsf TipSurroundingTextInfo.new).info.is_transitory)
          = false := by
      rw [Bool.eq_false_iff]
      intro hc
      simp only [Bool.and_eq_true, Bool.not_eq_true'] at hc
      exact hno hc
    rw [PrepareForReconversionFromIme_of_fallback host hcond]
    exact ⟨d, hd, hok, hok, hinfo⟩
  refine ⟨?_, hreach⟩
  intro hok htr
  have hcond : ((PrepareForReconversionTSF host.tsf TipSurroundingTextInfo.new).ok &&
      !(PrepareForReconversionTSF host.tsf TipSurroundingTextInfo.new).info.is_transitory)
        = false := by
    simp [hok, htr]
  have hno : ¬ ((PrepareForReconversionTSF host.tsf TipSurroundingTextInfo.new).ok = true ∧
        (PrepareForReconversionTSF host.tsf TipSurroundingTextInfo.new).info.is_transitory
          = false) := by
    simp [htr]
  have hokeq : (PrepareForReconversionFromIme host).ok =
        (PrepareForReconversionIMM32 host.imm32
          (PrepareForReconversionTSF host.tsf TipSurroundingTextInfo.new).info).ok := by
    rw [PrepareForReconversionFromIme_of_fallback host hcond]
  refine ⟨?_, hokeq, ?_⟩
  · rw [PrepareForReconversionFromIme_of_fallback host hcond]
    exact List.mem_append_right _ (PrepareForReconversionIMM32_attempted host.imm32 _)
  · intro hsucc
    rw [hokeq] at hsucc
    obtain ⟨d, _, _, _, hinfo⟩ := hreach hno hsucc
    rw [hinfo]

/-- Witness of C9: the context is transitory (static flags `TF_SS_TRANSITORY`), the edit
session succeeds, and the attached window supports reconversion. -/
theorem PrepareForReconversionFromIme_fallback_witness :
    (PrepareForReconversionTSF (sampleReconversionHost 4).tsf
      TipSurroundingTextInfo.new).ok = true ∧
    (PrepareForReconversionTSF (sampleReconversionHost 4).tsf
      TipSurroundingTextInfo.new).info.is_transitory = true ∧
    HostCall.GetActiveView ∈ (PrepareForReconversionFromIme (sampleReconversionHost 4)).calls ∧
    (PrepareForReconversionFromIme (sampleReconversionHost 4)).ok = true ∧
    (PrepareForReconversionFromIme (sampleReconversionHost 4)).need_async_reconversion = true ∧
    (PrepareForReconversionFromIme (sampleReconversionHost 4)).info.selected_text =
      [0x62, 0x63, 0x64] :=
  ⟨by decide, by decide,
    ((PrepareForReconversionFromIme_fallback (sampleReconversionHost 4)).1
      (by decide) (by decide)).1,
    by decide, by decide, by decide⟩

/-- C10. In `PrepareForReconversionFromIme`, if the primary TSF path succeeds and its
snapshot has `is_transitory = false`, the call returns true with exactly that snapshot
and `need_async_reconversion = false`, and the legacy path is not consulted: the calls
made to the host are those of the primary path, none of which is a call of the legacy
path (no message is sent to the attached window). -/
theorem PrepareForReconversionFromIme_primary (host : ReconversionHost)
    (hok : (PrepareForReconversionTSF host.tsf TipSurroundingTextInfo.new).ok = true)
    (hnt : (PrepareForReconversionTSF host.tsf TipSurroundingTextInfo.new).info.is_transitory
      = false) :
    PrepareForReconversionFromIme host =
      { ok := true,
        info := (PrepareForReconversionTSF host.tsf TipSurroundingTextInfo.new).info,
        need_async_reconversion := false,
        calls := (PrepareForReconversionTSF host.tsf TipSurroundingTextInfo.new).calls } ∧
    (∀ c ∈ (PrepareForReconversionFromIme host).calls, c.isLegacy = false) ∧
    (∀ dwSize, HostCall.SendMessage dwSize ∉ (PrepareForReconversionFromIme host).calls) := by
  have heq : PrepareForReconversionFromIme host =
      { ok := true,
        info := (PrepareForReconversionTSF host.tsf TipSurroundingTextInfo.new).info,
        need_async_reconversion := false,
        calls := (PrepareForReconversionTSF host.tsf TipSurroundingTextInfo.new).calls } := by
    unfold PrepareForReconversionFromIme
    simp [hok, hnt]
  have hleg : ∀ c ∈ (PrepareForReconversionFromIme host).calls, c.isLegacy = false := by
    intro c hc
    rw [heq] at hc
    exact PrepareForReconversionTSF_not_legacy host.tsf _ c hc
  refine ⟨heq, hleg, ?_⟩
  intro dwSize hmem
  have := hleg _ hmem
  simp [HostCall.isLegacy] at this

/-- Witness of C10: the context is not transitory and the edit session succeeds. -/
theorem PrepareForReconversionFromIme_primary_witness :
    (PrepareForReconversionTSF (sampleReconversionHost 0).tsf
      TipSurroundingTextInfo.new).ok = true ∧
    (PrepareForReconversionTSF (sampleReconversionHost 0).tsf
      TipSurroundingTextInfo.new).info.is_transitory = false ∧
    (PrepareForReconversionFromIme (sampleReconversionHost 0)).ok = true ∧
    (PrepareForReconversionFromIme (sampleReconversionHost 0)).need_async_reconversion
      = false ∧
    (PrepareForReconversionFromIme (sampleReconversionHost 0)).info.selected_text =
      [0x62, 0x63] :=
  ⟨by decide, by decide,
    congrArg ReconversionOutcome.ok
      (PrepareForReconversionFromIme_primary (sampleReconversionHost 0)
        (by decide) (by decide)).1,
    by decide, by decide⟩

/-- The body of `PrepareForReconversionFromIme` once the primary path has given a
non-transitory snapshot. -/
theorem PrepareForReconversionFromIme_primary_eq (host : ReconversionHost)
    (hok : (PrepareForReconversionTSF host.tsf TipSurroundingTextInfo.new).ok = true)
    (hnt : (PrepareForReconversionTSF host.tsf TipSurroundingTextInfo.new).info.is_transitory
      = false) :
    PrepareForReconversionFromIme host =
      { ok := true,
        info := (PrepareForReconversionTSF host.tsf TipSurroundingTextInfo.new).info,
        need_async_reconversion := false,
        calls := (PrepareForReconversionTSF host.tsf TipSurroundingTextInfo.new).calls } := by
  unfold PrepareForReconversionFromIme
  simp [hok, hnt]

/-- C11. `PrepareForReconversionFromIme` returns false exactly when the primary TSF
path did not give a non-transitory snapshot (it failed, or it succeeded with
`is_transitory = true`) and the legacy IMM32 path fails as well; whenever it returns
false, `need_async_reconversion` is false. -/
theorem PrepareForReconversionFromIme_failure (host : ReconversionHost) :
    ((PrepareForReconversionFromIme host).ok = false ↔
      ((PrepareForReconversionTSF host.tsf TipSurroundingTextInfo.new).ok = false ∨
        ((PrepareForReconversionTSF host.tsf TipSurroundingTextInfo.new).ok = true ∧
          (PrepareForReconversionTSF host.tsf TipSurroundingTextInfo.new).info.is_transitory
            = true)) ∧
      (PrepareForReconversionIMM32 host.imm32
        (PrepareForReconversionTSF host.tsf TipSurroundingTextInfo.new).info).ok = false) ∧
    ((PrepareForReconversionFromIme host).ok = false →
      (PrepareForReconversionFromIme host).need_async_reconversion = false) := by
  cases hok : (PrepareForReconversionTSF host.tsf TipSurroundingTextInfo.new).ok
  · have hcond : ((PrepareForReconversionTSF host.tsf TipSurroundingTextInfo.new).ok &&
        !(PrepareForReconversionTSF host.tsf TipSurroundingTextInfo.new).info.is_transitory)
          = false := by simp [hok]
    rw [PrepareForReconversionFromIme_of_fallback host hcond]
    simp
  · cases htr :
      (PrepareForReconversionTSF host.tsf TipSurroundingTextInfo.new).info.is_transitory
    · have hprim := (PrepareForReconversionFromIme_primary_eq host hok htr)
      rw [hprim]
      simp
    · have hcond : ((PrepareForReconversionTSF host.tsf TipSurroundingTextInfo.new).ok &&
          !(PrepareForReconversionTSF host.tsf TipSurroundingTextInfo.new).info.is_transitory)
            = false := by simp [hok, htr]
      rw [PrepareForReconversionFromIme_of_fallback host hcond]
      simp

/-- Witness of C11: the context refuses the edit session and the attached window does
not support reconversion. -/
theorem PrepareForReconversionFromIme_failure_witness :
    (PrepareForReconversionFromIme sampleFailingReconversionHost).ok = false ∧
    (PrepareForReconversionFromIme sampleFailingReconversionHost).need_async_reconversion
      = false :=
  ⟨by decide,
    (PrepareForReconversionFromIme_failure sampleFailingReconversionHost).2 (by decide)⟩

/-! ## Theorems: surrounding text -/

/-- The guarded side read gives the answer of `GetText` exactly when the three steps
before it succeeded. -/
theorem readSide_fst (clone collapse shift : HRESULT) (getText : HRESULT × WString)
    (collapseCall shiftCall : HostCall) :
    (readSide clone collapse shift getText collapseCall shiftCall).1 =
      if (SUCCEEDED clone && SUCCEEDED collapse && SUCCEEDED shift) = true then some getText
      else none := by
  unfold readSide
  cases SUCCEEDED clone <;> cases SUCCEEDED collapse <;> cases SUCCEEDED shift <;> rfl

/-- Without anchor movement, the edit session returns `S_OK` once the context status has
been read and the default selection located. -/
theorem DoEditSession_read_hr (host : UpdaterHost)
    (hstatus : FAILED host.GetStatus.1 = false)
    (hselection : FAILED host.GetDefaultSelection = false) :
    (SurroudingTextUpdater.DoEditSession host false).hr = S_OK := by
  unfold SurroudingTextUpdater.DoEditSession
  simp [hstatus, hselection]

/-- C12. In the edit session run for `Get` (no anchor movement), once the context status
has been read and the default selection located, the body returns `S_OK` whatever the
three text reads give, and each flag reflects its own sub-read only:
`has_selected_text` is the success of reading the selection, `has_preceding_text` is the
success of clone, collapse to the start, backward shift and read together, and
`has_following_text` that of clone, collapse to the end, forward shift and read. So a
failed preceding read with a successful selection read gives `has_selected_text = true`,
`has_preceding_text = false` and overall success. -/
theorem DoEditSession_flags (host : UpdaterHost)
    (hstatus : FAILED host.GetStatus.1 = false)
    (hselection : FAILED host.GetDefaultSelection = false) :
    (SurroudingTextUpdater.DoEditSession host false).hr = S_OK ∧
    (SurroudingTextUpdater.DoEditSession host false).result_.has_selected_text =
      SUCCEEDED host.GetText_selected.1 ∧
    (SurroudingTextUpdater.DoEditSession host false).result_.has_preceding_text =
      (SUCCEEDED host.Clone_preceding && SUCCEEDED host.Collapse_preceding &&
        SUCCEEDED host.ShiftStart_preceding && SUCCEEDED host.GetText_preceding.1) ∧
    (SurroudingTextUpdater.DoEditSession host false).result_.has_following_text =
      (SUCCEEDED host.Clone_following && SUCCEEDED host.Collapse_following &&
        SUCCEEDED host.ShiftEnd_following && SUCCEEDED host.GetText_following.1) ∧
    (SUCCEEDED host.GetText_selected.1 = true →
      (SUCCEEDED host.Clone_preceding && SUCCEEDED host.Collapse_preceding &&
        SUCCEEDED host.ShiftStart_preceding && SUCCEEDED host.GetText_preceding.1) = false →
      (SurroudingTextUpdater.DoEditSession host false).result_.has_selected_text = true ∧
      (SurroudingTextUpdater.DoEditSession host false).result_.has_preceding_text = false ∧
      SUCCEEDED (SurroudingTextUpdater.DoEditSession host false).hr = true) := by
  have hhr : (SurroudingTextUpdater.DoEditSession host false).hr = S_OK :=
    DoEditSession_read_hr host hstatus hselection
  have hsel : (SurroudingTextUpdater.DoEditSession host false).result_.has_selected_text =
      SUCCEEDED host.GetText_selected.1 := by
    unfold SurroudingTextUpdater.DoEditSession
    simp only [hstatus, hselection, Bool.false_eq_true, if_false, Bool.false_and, readSide_fst]
    split <;> split <;> rfl
  have hpre : (SurroudingTextUpdater.DoEditSession host false).result_.has_preceding_text =
      (SUCCEEDED host.Clone_preceding && SUCCEEDED host.Collapse_preceding &&
        SUCCEEDED host.ShiftStart_preceding && SUCCEEDED host.GetText_preceding.1) := by
    unfold SurroudingTextUpdater.DoEditSession
    simp only [hstatus, hselection, Bool.false_eq_true, if_false, Bool.false_and, readSide_fst]
    cases h : (SUCCEEDED host.Clone_preceding && SUCCEEDED host.Collapse_preceding &&
        SUCCEEDED host.ShiftStart_preceding)
    · simp only [Bool.false_eq_true, if_false, Bool.false_and]
      split <;> rfl
    · simp only [if_true, Bool.true_and]
      split <;> rfl
  have hfol : (SurroudingTextUpdater.DoEditSession host false).result_.has_following_text =
      (SUCCEEDED host.Clone_following && SUCCEEDED host.Collapse_following &&
        SUCCEEDED host.ShiftEnd_following && SUCCEEDED host.GetText_following.1) := by
    unfold SurroudingTextUpdater.DoEditSession
    simp only [hstatus, hselection, Bool.false_eq_true, if_false, Bool.false_and, readSide_fst]
    cases h : (SUCCEEDED host.Clone_following && SUCCEEDED host.Collapse_following &&
        SUCCEEDED host.ShiftEnd_following)
    · simp only [Bool.false_eq_true, if_false, Bool.false_and]
      split <;> rfl
    · simp only [if_true, Bool.true_and]
  refine ⟨hhr, hsel, hpre, hfol, ?_⟩
  intro h1 h2
  refine ⟨by rw [hsel, h1], by rw [hpre, h2], by rw [hhr]; rfl⟩

/-- Witness of C12: the selection is read, the shift for the preceding text fails. -/
theorem DoEditSession_flags_witness :
    FAILED samplePrecedingFailureHost.GetStatus.1 = false ∧
    FAILED samplePrecedingFailureHost.GetDefaultSelection = false ∧
    (SurroudingTextUpdater.DoEditSession samplePrecedingFailureHost false).hr = S_OK ∧
    (SurroudingTextUpdater.DoEditSession samplePrecedingFailureHost false
      ).result_.has_selected_text = true ∧
    (SurroudingTextUpdater.DoEditSession samplePrecedingFailureHost false
      ).result_.has_preceding_text = false :=
  ⟨by decide, by decide,
    (DoEditSession_flags samplePrecedingFailureHost (by decide) (by decide)).1,
    by decide, by decide⟩

/-- Without anchor movement, the edit session fails exactly when the context status
cannot be read or the default selection cannot be located. -/
theorem DoEditSession_read_failed (host : UpdaterHost) :
    FAILED (SurroudingTextUpdater.DoEditSession host false).hr =
      (FAILED host.GetStatus.1 || FAILED host.GetDefaultSelection) := by
  cases hstatus : FAILED host.GetStatus.1
  · cases hselection : FAILED host.GetDefaultSelection
    · rw [DoEditSession_read_hr host hstatus hselection]
      rfl
    · unfold SurroudingTextUpdater.DoEditSession
      simp [hstatus, hselection]
  · unfold SurroudingTextUpdater.DoEditSession
    simp [hstatus]

/-- The outcome of `Get` on a host that runs the edit session. -/
theorem Get_of_ran (host : TsfHost) (hran : host.RequestEditSession.ran_session = none) :
    (TipSurroundingText.Get host).ok =
      (!FAILED host.RequestEditSession.hr &&
        !FAILED (SurroudingTextUpdater.DoEditSession host.session false).hr) ∧
    (TipSurroundingText.Get host).info =
      if (TipSurroundingText.Get host).ok = true then
        (SurroudingTextUpdater.DoEditSession host.session false).result_
      else TipSurroundingTextInfo.new := by
  unfold TipSurroundingText.Get
  simp only [hran]
  cases FAILED host.RequestEditSession.hr <;>
    cases FAILED (SurroudingTextUpdater.DoEditSession host.session false).hr <;> simp

/-- The outcome of `Get` on a host that does not run the edit session and leaves
`written` as session result. -/
theorem Get_of_not_ran (host : TsfHost) (written : HRESULT)
    (hran : host.RequestEditSession.ran_session = some written) :
    (TipSurroundingText.Get host).ok =
      (!FAILED host.RequestEditSession.hr && !FAILED written) ∧
    (TipSurroundingText.Get host).info = TipSurroundingTextInfo.new := by
  unfold TipSurroundingText.Get
  simp only [hran]
  cases FAILED host.RequestEditSession.hr <;> cases FAILED written <;> simp

/-- C13, as stated, fails: on `sampleStatusFailureHost` the edit session is granted and
run and the default selection would be found, but the context status cannot be read, and
`Get` returns false. -/
theorem Get_fails_on_status_failure :
    FAILED sampleStatusFailureHost.RequestEditSession.hr = false ∧
    sampleStatusFailureHost.RequestEditSession.ran_session = none ∧
    FAILED sampleStatusFailureHost.session.GetDefaultSelection = false ∧
    FAILED sampleStatusFailureHost.session.GetStatus.1 = true ∧
    (TipSurroundingText.Get sampleStatusFailureHost).ok = false := by
  decide

/-- C13, amended. `Get` fails only when the edit session cannot be opened, the context
status cannot be read, or the default selection cannot be located: on every host that
runs the edit session, `Get` returns true exactly when `RequestEditSession`, `GetStatus`
and `GetDefaultSelection` succeed, whatever the composition lookup, the text reads and
the clone, collapse and shift of the ranges give. -/
theorem Get_succeeds_iff (host : TsfHost)
    (hran : host.RequestEditSession.ran_session = none) :
    (TipSurroundingText.Get host).ok = true ↔
      (FAILED host.RequestEditSession.hr = false ∧
        FAILED host.session.GetStatus.1 = false ∧
        FAILED host.session.GetDefaultSelection = false) := by
  rw [(Get_of_ran host hran).1, DoEditSession_read_failed]
  cases FAILED host.RequestEditSession.hr <;> cases FAILED host.session.GetStatus.1 <;>
    cases FAILED host.session.GetDefaultSelection <;> simp

/-- Witness of C13, amended: the session is granted and run, status and selection are
found, and the shift for the preceding text fails. -/
theorem Get_succeeds_iff_witness :
    ({ RequestEditSession := { hr := S_OK, ran_session := none },
       session := samplePrecedingFailureHost } : TsfHost).RequestEditSession.ran_session
      = none ∧
    (TipSurroundingText.Get { RequestEditSession := { hr := S_OK, ran_session := none },
                              session := samplePrecedingFailureHost }).ok = true :=
  ⟨rfl,
    (Get_succeeds_iff { RequestEditSession := { hr := S_OK, ran_session := none },
                        session := samplePrecedingFailureHost } rfl).2
      ⟨by decide, by decide, by decide⟩⟩

/-- C14. `Get` returns true if and only if both the value returned by
`RequestEditSession` and the session result are successes, the session result being the
status returned by the body when the host runs it; on success `*info` is the snapshot
populated by the body, and on failure `*info` is the fresh snapshot, with all flags
false and all texts empty. -/
theorem Get_both_results (host : TsfHost) :
    (host.RequestEditSession.ran_session = none →
      ((TipSurroundingText.Get host).ok = true ↔
        FAILED host.RequestEditSession.hr = false ∧
        FAILED (SurroudingTextUpdater.DoEditSession host.session false).hr = false) ∧
      ((TipSurroundingText.Get host).ok = true →
        (TipSurroundingText.Get host).info =
          (SurroudingTextUpdater.DoEditSession host.session false).result_)) ∧
    (∀ written, host.RequestEditSession.ran_session = some written →
      ((TipSurroundingText.Get host).ok = true ↔
        FAILED host.RequestEditSession.hr = false ∧ FAILED written = false)) ∧
    ((TipSurroundingText.Get host).ok = false →
      (TipSurroundingText.Get host).info = TipSurroundingTextInfo.new ∧
      (TipSurroundingText.Get host).info =
        { preceding_text := [], selected_text := [], following_text := [],
          has_preceding_text := false, has_selected_text := false,
          has_following_text := false, is_transitory := false, in_composition := false }) := by
  refine ⟨?_, ?_, ?_⟩
  · intro hran
    obtain ⟨hok, hinfo⟩ := Get_of_ran host hran
    constructor
    · rw [hok]
      cases FAILED host.RequestEditSession.hr <;>
        cases FAILED (SurroudingTextUpdater.DoEditSession host.session false).hr <;> simp
    · intro h
      rw [hinfo, if_pos h]
  · intro written hran
    rw [(Get_of_not_ran host written hran).1]
    cases FAILED host.RequestEditSession.hr <;> cases FAILED written <;> simp
  · intro hfail
    have hnew : (TipSurroundingText.Get host).info = TipSurroundingTextInfo.new := by
      cases hran : host.RequestEditSession.ran_session with
      | none =>
        rw [(Get_of_ran host hran).2, hfail]
        simp
      | some written => exact (Get_of_not_ran host written hran).2
    exact ⟨hnew, hnew⟩

/-- Witness of C14: the session is granted and run and its body succeeds. -/
theorem Get_both_results_witness :
    sampleTsfHost.RequestEditSession.ran_session = none ∧
    (TipSurroundingText.Get sampleTsfHost).ok = true ∧
    (TipSurroundingText.Get sampleTsfHost).info.selected_text = [0x62, 0x63] :=
  ⟨rfl, by decide,
    congrArg TipSurroundingTextInfo.selected_text
      (((Get_both_results sampleTsfHost).1 rfl).2 (by decide))⟩

/-! ## Theorems: deletion of the preceding text -/

/-- The deletion session always returns; its outcome with the measurement spelled out in
terms of the scalar characters of the text read. -/
theorem DoEditSession_delete_eq (host : DeleterHost) (k : Nat) :
    PrecedingTextDeleter.DoEditSession host k = some (
      if FAILED host.GetDefaultSelection then
        { hr := host.GetDefaultSelection, calls := [HostCall.GetDefaultSelection] }
      else if FAILED host.Clone then
        { hr := E_FAIL, calls := [HostCall.GetDefaultSelection, HostCall.Clone] }
      else if FAILED host.Collapse then
        { hr := E_FAIL, calls := [HostCall.GetDefaultSelection, HostCall.Clone,
            HostCall.Collapse TfAnchor.TF_ANCHOR_START] }
      else if k ≥ kMaxCharacterLength then
        { hr := E_UNEXPECTED, calls := [HostCall.GetDefaultSelection, HostCall.Clone,
            HostCall.Collapse TfAnchor.TF_ANCHOR_START] }
      else if FAILED host.ShiftStart_initial then
        { hr := E_FAIL, calls := [HostCall.GetDefaultSelection, HostCall.Clone,
            HostCall.Collapse TfAnchor.TF_ANCHOR_START,
            HostCall.ShiftStart (-(toLONG k) * 2) 0] }
      else if FAILED host.GetText.1 ∨ host.GetText.2 = [] ∨
          ¬ k ≤ scalarLength host.GetText.2 then
        { hr := E_FAIL, calls := [HostCall.GetDefaultSelection, HostCall.Clone,
            HostCall.Collapse TfAnchor.TF_ANCHOR_START,
            HostCall.ShiftStart (-(toLONG k) * 2) 0, HostCall.GetText] }
      else if FAILED (host.ShiftStart_final
            (toLONG (host.GetText.2.length - lastScalarsWidth host.GetText.2 k))).1 ∨
          toLONG (host.GetText.2.length - lastScalarsWidth host.GetText.2 k) ≠
            (host.ShiftStart_final
              (toLONG (host.GetText.2.length - lastScalarsWidth host.GetText.2 k))).2 then
        { hr := E_FAIL, calls := [HostCall.GetDefaultSelection, HostCall.Clone,
            HostCall.Collapse TfAnchor.TF_ANCHOR_START,
            HostCall.ShiftStart (-(toLONG k) * 2) 0, HostCall.GetText,
            HostCall.ShiftStart
              (toLONG (host.GetText.2.length - lastScalarsWidth host.GetText.2 k)) 0] }
      else
        { hr := if FAILED host.SetText then E_FAIL else S_OK,
          calls := [HostCall.GetDefaultSelection, HostCall.Clone,
            HostCall.Collapse TfAnchor.TF_ANCHOR_START,
            HostCall.ShiftStart (-(toLONG k) * 2) 0, HostCall.GetText,
            HostCall.ShiftStart
              (toLONG (host.GetText.2.length - lastScalarsWidth host.GetText.2 k)) 0,
            HostCall.SetText []] }) := by
  unfold PrecedingTextDeleter.DoEditSession
  simp only [MeasureCharactersBackward_eq]
  by_cases h1 : FAILED host.GetDefaultSelection = true
  · simp [h1]
  by_cases h2 : FAILED host.Clone = true
  · simp [h1, h2]
  by_cases h3 : FAILED host.Collapse = true
  · simp [h1, h2, h3]
  by_cases h4 : k ≥ kMaxCharacterLength
  · simp [h1, h2, h3, h4]
  by_cases h5 : FAILED host.ShiftStart_initial = true
  · simp [h1, h2, h3, h4, h5]
  by_cases h6 : FAILED host.GetText.1 = true
  · simp [h1, h2, h3, h4, h5, h6]
  by_cases h7 : host.GetText.2 = []
  · simp [h1, h2, h3, h4, h5, h6, h7]
  by_cases h8 : k ≤ scalarLength host.GetText.2
  · by_cases h9 : FAILED (host.ShiftStart_final
        (toLONG (host.GetText.2.length - lastScalarsWidth host.GetText.2 k))).1 = true
    · simp [h1, h2, h3, h4, h5, h6, h7, h8, h9]
    by_cases h10 : toLONG (host.GetText.2.length - lastScalarsWidth host.GetText.2 k) =
            (host.ShiftStart_final
              (toLONG (host.GetText.2.length - lastScalarsWidth host.GetText.2 k))).2
    · by_cases h11 : FAILED host.SetText = true
      · simp [h1, h2, h3, h4, h5, h6, h7, h8, h9, ← h10, h11]
      · simp [h1, h2, h3, h4, h5, h6, h7, h8, h9, ← h10, h11]
    · simp [h1, h2, h3, h4, h5, h6, h7, h8, h9, h10]
  · simp [h1, h2, h3, h4, h5, h6, h7, h8]

/-- The conditions for reaching `SetText`, with the measurement spelled out. -/
theorem reachesSetText_iff (host : DeleterHost) (k : Nat) :
    PrecedingTextDeleter.reachesSetText host k ↔
      (FAILED host.GetDefaultSelection = false ∧
        FAILED host.Clone = false ∧
        FAILED host.Collapse = false ∧
        k < kMaxCharacterLength ∧
        FAILED host.ShiftStart_initial = false ∧
        FAILED host.GetText.1 = false ∧
        host.GetText.2 ≠ [] ∧
        k ≤ scalarLength host.GetText.2 ∧
        FAILED (host.ShiftStart_final
          (toLONG (host.GetText.2.length - lastScalarsWidth host.GetText.2 k))).1 = false ∧
        (host.ShiftStart_final
          (toLONG (host.GetText.2.length - lastScalarsWidth host.GetText.2 k))).2 =
            toLONG (host.GetText.2.length - lastScalarsWidth host.GetText.2 k)) := by
  unfold PrecedingTextDeleter.reachesSetText
  simp only [MeasureCharactersBackward_eq]
  constructor
  · rintro ⟨h1, h2, h3, h4, h5, h6, h7, len, hm, h9, h10⟩
    by_cases h8 : k ≤ scalarLength host.GetText.2
    · rw [if_pos h8] at hm
      simp only [Option.some.injEq, Prod.mk.injEq, true_and] at hm
      subst hm
      exact ⟨h1, h2, h3, h4, h5, h6, h7, h8, h9, h10⟩
    · rw [if_neg h8] at hm
      simp at hm
  · rintro ⟨h1, h2, h3, h4, h5, h6, h7, h8, h9, h10⟩
    exact ⟨h1, h2, h3, h4, h5, h6, h7, _, by rw [if_pos h8], h9, h10⟩

/-- The status `E_FAIL` is a failure. -/
theorem FAILED_E_FAIL : FAILED E_FAIL = true := by decide

/-- The status `E_UNEXPECTED` is a failure. -/
theorem FAILED_E_UNEXPECTED : FAILED E_UNEXPECTED = true := by decide

/-- The status `S_OK` is not a failure. -/
theorem FAILED_S_OK : FAILED S_OK = false := by decide

/-- The deletion session in full: at most one `SetText`, issued last and only when every
earlier step succeeded; otherwise failure and no `SetText`. -/
theorem DoEditSession_delete_outcome (host : DeleterHost) (k : Nat) :
    ∃ o, PrecedingTextDeleter.DoEditSession host k = some o ∧
      (o.calls.filter HostCall.isSetText).length ≤ 1 ∧
      (PrecedingTextDeleter.reachesSetText host k →
        ∃ pre, o.calls = pre ++ [HostCall.SetText []] ∧ ∀ c ∈ pre, c.isSetText = false) ∧
      (¬ PrecedingTextDeleter.reachesSetText host k →
        FAILED o.hr = true ∧ ∀ c ∈ o.calls, c.isSetText = false) := by
  refine ⟨_, DoEditSession_delete_eq host k, ?_⟩
  rw [reachesSetText_iff]
  by_cases h1 : FAILED host.GetDefaultSelection = true
  · simp only [h1, if_true]
    simp [HostCall.isSetText, h1]
  by_cases h2 : FAILED host.Clone = true
  · simp only [h1, h2, if_true, if_false, Bool.false_eq_true]
    simp [HostCall.isSetText, h2, FAILED_E_FAIL]
  by_cases h3 : FAILED host.Collapse = true
  · simp only [h1, h2, h3, if_true, if_false, Bool.false_eq_true]
    simp [HostCall.isSetText, h3, FAILED_E_FAIL]
  by_cases h4 : k ≥ kMaxCharacterLength
  · simp only [h1, h2, h3, h4, if_true, if_false, Bool.false_eq_true]
    have : ¬ k < kMaxCharacterLength := by omega
    simp [HostCall.isSetText, this, FAILED_E_UNEXPECTED]
  by_cases h5 : FAILED host.ShiftStart_initial = true
  · simp only [h1, h2, h3, h4, h5, if_true, if_false, Bool.false_eq_true]
    simp [HostCall.isSetText, h5, FAILED_E_FAIL]
  by_cases h6 : FAILED host.GetText.1 = true ∨ host.GetText.2 = [] ∨
      ¬ k ≤ scalarLength host.GetText.2
  · simp only [h1, h2, h3, h4, h5, h6, if_true, if_false, Bool.false_eq_true]
    refine ⟨by simp [HostCall.isSetText], ?_, ?_⟩
    · rintro ⟨_, _, _, _, _, g6, g7, g8, _⟩
      rcases h6 with h | h | h
      · rw [g6] at h; exact absurd h (by decide)
      · exact absurd h g7
      · exact absurd g8 h
    · intro _
      exact ⟨FAILED_E_FAIL, by simp [HostCall.isSetText]⟩
  by_cases h7 : FAILED (host.ShiftStart_final
        (toLONG (host.GetText.2.length - lastScalarsWidth host.GetText.2 k))).1 = true ∨
      toLONG (host.GetText.2.length - lastScalarsWidth host.GetText.2 k) ≠
        (host.ShiftStart_final
          (toLONG (host.GetText.2.length - lastScalarsWidth host.GetText.2 k))).2
  · simp only [h1, h2, h3, h4, h5, h6, h7, if_true, if_false, Bool.false_eq_true]
    refine ⟨by simp [HostCall.isSetText], ?_, ?_⟩
    · rintro ⟨_, _, _, _, _, _, _, _, g9, g10⟩
      rcases h7 with h | h
      · rw [g9] at h; exact absurd h (by decide)
      · exact absurd g10.symm h
    · intro _
      exact ⟨FAILED_E_FAIL, by simp [HostCall.isSetText]⟩
  · simp only [h1, h2, h3, h4, h5, h6, h7, if_true, if_false, Bool.false_eq_true]
    refine ⟨by simp [HostCall.isSetText], ?_, ?_⟩
    · intro _
      exact ⟨[HostCall.GetDefaultSelection, HostCall.Clone,
          HostCall.Collapse TfAnchor.TF_ANCHOR_START,
          HostCall.ShiftStart (-(toLONG k) * 2) 0, HostCall.GetText,
          HostCall.ShiftStart
            (toLONG (host.GetText.2.length - lastScalarsWidth host.GetText.2 k)) 0],
        rfl, by simp [HostCall.isSetText]⟩
    · intro hn
      exfalso
      apply hn
      push_neg at h6 h7
      simp only [Bool.not_eq_true] at h1 h2 h3 h5 h6 h7
      exact ⟨True.intro, True.intro, True.intro, Nat.lt_of_not_ge h4, True.intro, h6.1,
        h6.2.1, h6.2.2, h7.1, h7.2.symm⟩

/-- The conversion to `LONG` is exact below `2 ^ 31`. -/
theorem toLONG_of_lt (n : Nat) (h : n < 2 ^ 31) : toLONG n = (n : Int) := by
  unfold toLONG
  norm_num at h ⊢
  omega

/-- Above the bound, the deletion session fails before any shift, read or write. -/
theorem DoEditSession_over_bound (host : DeleterHost) (k : Nat)
    (hk : k ≥ kMaxCharacterLength) :
    ∃ o, PrecedingTextDeleter.DoEditSession host k = some o ∧ FAILED o.hr = true ∧
      ∀ c ∈ o.calls, c.isRangeAccess = false := by
  refine ⟨_, DoEditSession_delete_eq host k, ?_⟩
  by_cases h1 : FAILED host.GetDefaultSelection = true
  · simp only [h1, if_true]
    simp [HostCall.isRangeAccess, h1]
  by_cases h2 : FAILED host.Clone = true
  · simp only [h1, h2, if_true, if_false, Bool.false_eq_true]
    simp [HostCall.isRangeAccess, FAILED_E_FAIL]
  by_cases h3 : FAILED host.Collapse = true
  · simp only [h1, h2, h3, if_true, if_false, Bool.false_eq_true]
    simp [HostCall.isRangeAccess, FAILED_E_FAIL]
  · simp only [h1, h2, h3, hk, if_true, if_false, Bool.false_eq_true]
    simp [HostCall.isRangeAccess, FAILED_E_UNEXPECTED]

/-- C15, amended. For every count of at least 1,048,576, `DeletePrecedingText` has no
check of its own and does call `RequestEditSession`; the bound is checked inside the
session body, so the calls made never include a shift, a text read or a text write, and
when the host runs the session the call returns false. -/
theorem DeletePrecedingText_over_bound (host : DeleteHost) (k : Nat)
    (hk : k ≥ kMaxCharacterLength) :
    ∃ o, TipSurroundingText.DeletePrecedingText host k = some o ∧
      o.calls.head? = some (HostCall.RequestEditSession (Nat.lor TF_ES_SYNC TF_ES_READWRITE)) ∧
      (∀ c ∈ o.calls, c.isRangeAccess = false) ∧
      (host.RequestEditSession.ran_session = none → o.ok = false) := by
  unfold TipSurroundingText.DeletePrecedingText
  cases hran : host.RequestEditSession.ran_session with
  | none =>
    obtain ⟨d, hd, hfail, hcalls⟩ := DoEditSession_over_bound host.session k hk
    simp only [hd, hfail, if_true]
    by_cases hhr : FAILED host.RequestEditSession.hr = true
    · simp only [hhr, if_true]
      refine ⟨_, rfl, rfl, ?_, fun _ => rfl⟩
      intro c hc
      rcases List.mem_cons.1 hc with rfl | hc
      · rfl
      · exact hcalls c hc
    · simp only [hhr, if_false]
      refine ⟨_, rfl, rfl, ?_, fun _ => rfl⟩
      intro c hc
      rcases List.mem_cons.1 hc with rfl | hc
      · rfl
      · exact hcalls c hc
  | some written =>
    simp only
    split_ifs <;> exact ⟨_, rfl, rfl, by simp [HostCall.isRangeAccess], by simp⟩

/-- Witness of C15, amended: a count of 1,048,577 on a host that runs the session. -/
theorem DeletePrecedingText_over_bound_witness :
    1048577 ≥ kMaxCharacterLength ∧
    ∃ o, TipSurroundingText.DeletePrecedingText (sampleDeleteHost [0x61]) 1048577 = some o ∧
      (∀ c ∈ o.calls, c.isRangeAccess = false) :=
  ⟨by decide,
    let ⟨o, ho, _, hcalls, _⟩ :=
      DeletePrecedingText_over_bound (sampleDeleteHost [0x61]) 1048577 (by decide)
    ⟨o, ho, hcalls⟩⟩

/-- C15, as stated, fails: with a count of 1,048,577, above the bound,
`DeletePrecedingText` calls `RequestEditSession`, and the session body looks up the
selection, clones it and collapses the clone before it rejects the count. -/
theorem DeletePrecedingText_requests_session :
    1048577 > 1048576 ∧
    TipSurroundingText.DeletePrecedingText (sampleDeleteHost [0x61]) 1048577 =
      some { ok := false,
             calls := [HostCall.RequestEditSession 7, HostCall.GetDefaultSelection,
               HostCall.Clone, HostCall.Collapse TfAnchor.TF_ANCHOR_START] } := by
  decide

/-- C16. The deletion session is all-or-nothing: in every run `SetText` is issued at
most once and only as the last call, after the selection lookup, clone, collapse, bound
check, backward shift, text read, non-empty check, measurement and forward re-shift have
all succeeded and the shift performed by the host equals the computed final offset (the
length of the text read minus the measured length, as a `LONG`, which is that difference
itself below `2 ^ 31`); if the re-shift differs from that offset or any earlier step
fails, the session returns a failure and no `SetText` is issued. -/
theorem DoEditSession_all_or_nothing (host : DeleterHost) (k : Nat) :
    (∃ o, PrecedingTextDeleter.DoEditSession host k = some o ∧
      (o.calls.filter HostCall.isSetText).length ≤ 1 ∧
      (PrecedingTextDeleter.reachesSetText host k →
        ∃ pre, o.calls = pre ++ [HostCall.SetText []] ∧ ∀ c ∈ pre, c.isSetText = false) ∧
      (¬ PrecedingTextDeleter.reachesSetText host k →
        FAILED o.hr = true ∧ ∀ c ∈ o.calls, c.isSetText = false)) ∧
    (∀ n : Nat, n < 2 ^ 31 → toLONG n = (n : Int)) :=
  ⟨DoEditSession_delete_outcome host k, toLONG_of_lt⟩

/-- Witness of C16: two code units before the caret, one character to delete. -/
theorem DoEditSession_all_or_nothing_witness :
    PrecedingTextDeleter.reachesSetText (sampleDeleterHost [0x61, 0x62]) 1 ∧
    ∃ o, PrecedingTextDeleter.DoEditSession (sampleDeleterHost [0x61, 0x62]) 1 = some o ∧
      ∃ pre, o.calls = pre ++ [HostCall.SetText []] ∧ ∀ c ∈ pre, c.isSetText = false :=
  have hreach : PrecedingTextDeleter.reachesSetText (sampleDeleterHost [0x61, 0x62]) 1 :=
    ⟨by decide, by decide, by decide, by decide, by decide, by decide, by decide,
      1, by decide, by decide, by decide⟩
  ⟨hreach,
    let ⟨o, ho, _, hset, _⟩ :=
      (DoEditSession_all_or_nothing (sampleDeleterHost [0x61, 0x62]) 1).1
    ⟨o, ho, hset hreach⟩⟩

/-! ## Theorems: reference count and cursor sequences -/

/-- The values returned by a sequence of calls are the successive counts. -/
theorem TipRefCount_calls_scanl : ∀ (calls : List RefCountCall) (self : TipRefCount),
    self.reference_count :: self.calls calls =
      List.scanl countAfter self.reference_count calls := by
  intro calls
  induction calls with
  | nil => intro self; rfl
  | cons c rest ih =>
    intro self
    cases c with
    | AddRefImpl =>
      rw [List.scanl_cons, TipRefCount.calls]
      have := ih self.AddRefImpl.2
      simp only [TipRefCount.AddRefImpl, countAfter] at this ⊢
      rw [this]
      rfl
    | ReleaseImpl =>
      rw [List.scanl_cons, TipRefCount.calls]
      have := ih self.ReleaseImpl.2
      by_cases h0 : self.reference_count = 0
      · simp only [TipRefCount.ReleaseImpl, h0, if_true, countAfter] at this ⊢
        rw [← h0] at this ⊢
        simp only [h0] at this ⊢
        rw [this]
        rfl
      · simp only [TipRefCount.ReleaseImpl, h0, if_false, countAfter] at this ⊢
        rw [this]
        rfl

/-- C17. For every finite sequence of `AddRefImpl` and `ReleaseImpl` calls on a fresh
`TipRefCount`, each call returns the new count, the count starting at 0, `AddRefImpl`
adding 1 and `ReleaseImpl` subtracting 1 saturating at 0; the first `AddRefImpl` returns
1, a `ReleaseImpl` on a count of 0 returns 0, and the sequence AddRef, AddRef, Release,
Release, Release returns 1, 2, 1, 0, 0. -/
theorem TipRefCount_calls (calls : List RefCountCall) :
    0 :: TipRefCount.new.calls calls = List.scanl countAfter 0 calls ∧
    TipRefCount.new.AddRefImpl.1 = 1 ∧
    (∀ self : TipRefCount, self.reference_count = 0 → self.ReleaseImpl = (0, self)) ∧
    (∀ self : TipRefCount, self.AddRefImpl.1 = self.reference_count + 1 ∧
      self.AddRefImpl.2.reference_count = self.AddRefImpl.1 ∧
      self.ReleaseImpl.1 = self.reference_count - 1 ∧
      self.ReleaseImpl.2.reference_count = self.ReleaseImpl.1) ∧
    TipRefCount.new.calls [RefCountCall.AddRefImpl, RefCountCall.AddRefImpl,
      RefCountCall.ReleaseImpl, RefCountCall.ReleaseImpl, RefCountCall.ReleaseImpl] =
      [1, 2, 1, 0, 0] := by
  refine ⟨TipRefCount_calls_scanl calls TipRefCount.new, rfl, ?_, ?_, by decide⟩
  · intro self h
    simp [TipRefCount.ReleaseImpl, h]
  · intro self
    refine ⟨rfl, rfl, ?_, ?_⟩
    · by_cases h : self.reference_count = 0 <;> simp [TipRefCount.ReleaseImpl, h]
    · by_cases h : self.reference_count = 0 <;> simp [TipRefCount.ReleaseImpl, h]

/-- Witness of C17: a release on the fresh count. -/
theorem TipRefCount_calls_witness :
    TipRefCount.new.reference_count = 0 ∧
    TipRefCount.new.ReleaseImpl = (0, TipRefCount.new) :=
  ⟨rfl, (TipRefCount_calls []).2.2.1 TipRefCount.new rfl⟩

/-- One call on an enumerator whose position is within `0..N`. -/
theorem call_position (s : EnumTfCandidatesImpl) (h : s.current_ ≤ s.candidates_.length)
    (c : CursorCall) :
    (s.call c).candidates_ = s.candidates_ ∧
    (s.call c).current_ ≤ s.candidates_.length ∧
    (c ≠ CursorCall.Reset → s.current_ ≤ (s.call c).current_) ∧
    (c = CursorCall.Reset → (s.call c).current_ = 0) := by
  cases c with
  | Next count =>
    simp only [EnumTfCandidatesImpl.call, EnumTfCandidatesImpl.Next]
    rw [NextLoop_spec count count 0 s [] (by omega)]
    refine ⟨rfl, ?_, ?_, ?_⟩
    · simp only
      omega
    · intro _
      simp only
      omega
    · intro hc
      exact absurd hc (by simp)
  | Reset =>
    simp [EnumTfCandidatesImpl.call, EnumTfCandidatesImpl.Reset]
  | Skip count =>
    simp only [EnumTfCandidatesImpl.call, EnumTfCandidatesImpl.Skip]
    split_ifs
    · exact ⟨rfl, le_refl _, fun _ => h, fun hc => absurd hc (by simp)⟩
    · refine ⟨rfl, ?_, ?_, fun hc => absurd hc (by simp)⟩
      · simp only
        omega
      · intro _
        simp only
        omega

/-- Every call of a sequence starts from a position within `0..N` and ends at one. -/
theorem calls_position : ∀ (ops : List CursorCall) (s0 : EnumTfCandidatesImpl),
    s0.current_ ≤ s0.candidates_.length →
    ∀ (j : Nat) (op : CursorCall) (s : EnumTfCandidatesImpl),
      ops[j]? = some op → (s0.calls ops)[j]? = some s →
      ∃ before, (s0 :: s0.calls ops)[j]? = some before ∧ s = before.call op ∧
        before.candidates_ = s0.candidates_ ∧ s.candidates_ = s0.candidates_ ∧
        before.current_ ≤ s0.candidates_.length ∧ s.current_ ≤ s0.candidates_.length ∧
        (op ≠ CursorCall.Reset → before.current_ ≤ s.current_) ∧
        (op = CursorCall.Reset → s.current_ = 0) := by
  intro ops
  induction ops with
  | nil => intro s0 _ j op s h; simp at h
  | cons c rest ih =>
    intro s0 h0 j op s hop hs
    obtain ⟨c1, c2, c3, c4⟩ := call_position s0 h0 c
    cases j with
    | zero =>
      simp only [List.getElem?_cons_zero, Option.some.injEq] at hop
      simp only [EnumTfCandidatesImpl.calls, List.getElem?_cons_zero, Option.some.injEq] at hs
      subst hop hs
      exact ⟨s0, rfl, rfl, rfl, c1, h0, c2, c3, c4⟩
    | succ j =>
      simp only [List.getElem?_cons_succ] at hop
      simp only [EnumTfCandidatesImpl.calls, List.getElem?_cons_succ] at hs
      obtain ⟨before, hb, e1, e2, e3, e4, e5, e6, e7⟩ :=
        ih (s0.call c) (by rw [c1]; exact c2) j op s hop hs
      refine ⟨before, ?_, e1, ?_, ?_, ?_, ?_, e6, e7⟩
      · simpa [EnumTfCandidatesImpl.calls] using hb
      · rw [e2, c1]
      · rw [e3, c1]
      · rw [c1] at e4; exact e4
      · rw [c1] at e5; exact e5

/-- C18. For every candidate list of length `N` and every finite sequence of `Next`,
`Skip` and `Reset` calls on a cursor created at position 0, the position is within
`0..N` before and after every call; `Next` and `Skip` never decrease it and `Reset` sets
it to 0, so that after `Reset`, `Next(1)` fetches candidate 0 when `N > 0`. -/
theorem cursor_position_invariant (candidates : List WString) (ops : List CursorCall) :
    (∀ (j : Nat) (op : CursorCall) (s : EnumTfCandidatesImpl),
      ops[j]? = some op → ((EnumTfCandidatesImpl.new candidates).calls ops)[j]? = some s →
      ∃ before,
        (EnumTfCandidatesImpl.new candidates ::
          (EnumTfCandidatesImpl.new candidates).calls ops)[j]? = some before ∧
        s = before.call op ∧
        before.current_ ≤ candidates.length ∧ s.current_ ≤ candidates.length ∧
        (op ≠ CursorCall.Reset → before.current_ ≤ s.current_) ∧
        (op = CursorCall.Reset → s.current_ = 0)) ∧
    ((EnumTfCandidatesImpl.new candidates).calls ops).length = ops.length ∧
    (∀ (s : EnumTfCandidatesImpl) (h : 0 < s.candidates_.length),
      s.Reset.1 = S_OK ∧ s.Reset.2.current_ = 0 ∧
      (s.Reset.2.Next 1).candidate_string = [{ index_ := 0, value_ := s.candidates_[0] }]) := by
  refine ⟨?_, ?_, ?_⟩
  · intro j op s hop hs
    obtain ⟨before, hb, e1, _, _, e4, e5, e6, e7⟩ :=
      calls_position ops (EnumTfCandidatesImpl.new candidates) (Nat.zero_le _) j op s hop hs
    exact ⟨before, hb, e1, e4, e5, e6, e7⟩
  · generalize EnumTfCandidatesImpl.new candidates = s0
    induction ops generalizing s0 with
    | nil => rfl
    | cons c rest ih => simp [EnumTfCandidatesImpl.calls, ih]
  · intro s h
    have h2 : ¬ (s.candidates_.length ≤ 0) := by omega
    simp [EnumTfCandidatesImpl.Reset, EnumTfCandidatesImpl.Next, EnumTfCandidatesImpl.NextLoop,
      h2, List.getD_eq_getElem?_getD, h, S_OK]

/-- Witness of C18: `Next(2)`, `Skip(5)`, `Reset` on three candidates; the `Skip` moves
from position 2 to position 3. -/
theorem cursor_position_invariant_witness :
    [CursorCall.Next 2, CursorCall.Skip 5, CursorCall.Reset][1]? = some (CursorCall.Skip 5) ∧
    ((EnumTfCandidatesImpl.new [[0x61], [0x62], [0x63]]).calls
      [CursorCall.Next 2, CursorCall.Skip 5, CursorCall.Reset])[1]? =
      some (EnumTfCandidatesImpl.mk [[0x61], [0x62], [0x63]] 3) ∧
    (EnumTfCandidatesImpl.mk [[0x61], [0x62], [0x63]] 3).current_ ≤
      [[0x61], [0x62], [0x63]].length :=
  ⟨by decide, by decide,
    let ⟨_, _, _, _, h, _⟩ :=
      (cursor_position_invariant [[0x61], [0x62], [0x63]]
        [CursorCall.Next 2, CursorCall.Skip 5, CursorCall.Reset]).1 1 (CursorCall.Skip 5)
        (EnumTfCandidatesImpl.mk [[0x61], [0x62], [0x63]] 3) (by decide) (by decide)
    h⟩

/-! ## Theorems: halt condition and over-fetch -/

/-- C19, as stated, fails: the backward shift of the deletion session is requested with
halt flags 0, while the shift of the surrounding-text reader is requested with
`TF_HF_OBJECT`, and the two differ. -/
theorem deleter_halt_flags_differ :
    PrecedingTextDeleter.DoEditSession (sampleDeleterHost [0x61, 0x62]) 1 =
      some { hr := S_OK,
             calls := [HostCall.GetDefaultSelection, HostCall.Clone,
               HostCall.Collapse TfAnchor.TF_ANCHOR_START, HostCall.ShiftStart (-2) 0,
               HostCall.GetText, HostCall.ShiftStart 1 0, HostCall.SetText []] } ∧
    HostCall.ShiftStart (-20) TF_HF_OBJECT ∈
      (SurroudingTextUpdater.DoEditSession (sampleUpdaterHost 0) false).calls ∧
    (0 : Nat) ≠ TF_HF_OBJECT := by
  decide

/-- C19, amended. In the deletion session every `ShiftStart` (the backward shift and the
forward re-shift) is requested with a halt condition whose flags are 0, so it does not
halt at an embedded object; the halt at an embedded object (`TF_HF_OBJECT`) is requested
by the surrounding-text reader only, for its preceding and following shifts. -/
theorem shift_halt_flags :
    (∀ (host : DeleterHost) (k : Nat) (o : DeleterOutcome),
      PrecedingTextDeleter.DoEditSession host k = some o →
      ∀ n f, HostCall.ShiftStart n f ∈ o.calls → f = 0) ∧
    (∀ (host : UpdaterHost) (move_anchor : Bool) (n : Int) (f : Nat),
      (HostCall.ShiftStart n f ∈ (SurroudingTextUpdater.DoEditSession host move_anchor).calls →
        f = TF_HF_OBJECT) ∧
      (HostCall.ShiftEnd n f ∈ (SurroudingTextUpdater.DoEditSession host move_anchor).calls →
        f = TF_HF_OBJECT)) := by
  constructor
  · intro host k o ho n f hmem
    rw [DoEditSession_delete_eq] at ho
    simp only [Option.some.injEq] at ho
    subst ho
    by_cases h1 : FAILED host.GetDefaultSelection = true
    · simp only [h1, if_true] at hmem
      simp at hmem
    by_cases h2 : FAILED host.Clone = true
    · simp only [h1, h2, if_true, if_false, Bool.false_eq_true] at hmem
      simp at hmem
    by_cases h3 : FAILED host.Collapse = true
    · simp only [h1, h2, h3, if_true, if_false, Bool.false_eq_true] at hmem
      simp at hmem
    by_cases h4 : k ≥ kMaxCharacterLength
    · simp only [h1, h2, h3, h4, if_true, if_false, Bool.false_eq_true] at hmem
      simp at hmem
    by_cases h5 : FAILED host.ShiftStart_initial = true
    · simp only [h1, h2, h3, h4, h5, if_true, if_false, Bool.false_eq_true] at hmem
      simp at hmem
      exact hmem.2
    by_cases h6 : FAILED host.GetText.1 = true ∨ host.GetText.2 = [] ∨
        ¬ k ≤ scalarLength host.GetText.2
    · simp only [h1, h2, h3, h4, h5, h6, if_true, if_false, Bool.false_eq_true] at hmem
      simp at hmem
      exact hmem.2
    by_cases h7 : FAILED (host.ShiftStart_final
          (toLONG (host.GetText.2.length - lastScalarsWidth host.GetText.2 k))).1 = true ∨
        toLONG (host.GetText.2.length - lastScalarsWidth host.GetText.2 k) ≠
          (host.ShiftStart_final
            (toLONG (host.GetText.2.length - lastScalarsWidth host.GetText.2 k))).2
    · simp only [h1, h2, h3, h4, h5, h6, h7, if_true, if_false, Bool.false_eq_true] at hmem
      simp at hmem
      rcases hmem with h | h <;> exact h.2
    · simp only [h1, h2, h3, h4, h5, h6, h7, if_true, if_false, Bool.false_eq_true] at hmem
      simp at hmem
      rcases hmem with h | h <;> exact h.2
  · intro host move_anchor n f
    constructor
    · intro hmem
      unfold SurroudingTextUpdater.DoEditSession at hmem
      simp only at hmem
      split_ifs at hmem
      · simp at hmem
      · simp at hmem
      · simp at hmem
      · simp only [List.mem_append] at hmem
        rcases hmem with (hc | hc) | hc
        · simp at hc
        · rcases readSide_calls _ _ _ _ _ _ _ hc with h | h | h | h <;> simp at h
          exact h.2
        · rcases readSide_calls _ _ _ _ _ _ _ hc with h | h | h | h <;> simp at h
      · simp only [List.mem_append] at hmem
        rcases hmem with (hc | hc) | hc
        · simp at hc
        · rcases readSide_calls _ _ _ _ _ _ _ hc with h | h | h | h <;> simp at h
          exact h.2
        · rcases readSide_calls _ _ _ _ _ _ _ hc with h | h | h | h <;> simp at h
    · intro hmem
      unfold SurroudingTextUpdater.DoEditSession at hmem
      simp only at hmem
      split_ifs at hmem
      · simp at hmem
      · simp at hmem
      · simp at hmem
      · simp only [List.mem_append] at hmem
        rcases hmem with (hc | hc) | hc
        · simp at hc
        · rcases readSide_calls _ _ _ _ _ _ _ hc with h | h | h | h <;> simp at h
        · rcases readSide_calls _ _ _ _ _ _ _ hc with h | h | h | h <;> simp at h
          exact h.2
      · simp only [List.mem_append] at hmem
        rcases hmem with (hc | hc) | hc
        · simp at hc
        · rcases readSide_calls _ _ _ _ _ _ _ hc with h | h | h | h <;> simp at h
        · rcases readSide_calls _ _ _ _ _ _ _ hc with h | h | h | h <;> simp at h
          exact h.2

/-- Witness of C19, amended: the backward shift by two code units of the sample
deletion session. -/
theorem shift_halt_flags_witness :
    PrecedingTextDeleter.DoEditSession (sampleDeleterHost [0x61, 0x62]) 1 =
      some { hr := S_OK,
             calls := [HostCall.GetDefaultSelection, HostCall.Clone,
               HostCall.Collapse TfAnchor.TF_ANCHOR_START, HostCall.ShiftStart (-2) 0,
               HostCall.GetText, HostCall.ShiftStart 1 0, HostCall.SetText []] } ∧
    (0 : Nat) = 0 :=
  ⟨by decide,
    shift_halt_flags.1 (sampleDeleterHost [0x61, 0x62]) 1
      { hr := S_OK,
        calls := [HostCall.GetDefaultSelection, HostCall.Clone,
          HostCall.Collapse TfAnchor.TF_ANCHOR_START, HostCall.ShiftStart (-2) 0,
          HostCall.GetText, HostCall.ShiftStart 1 0, HostCall.SetText []] }
      (by decide) (-2) 0 (by decide)⟩

/-- The widths read from the end are the widths of the forward reading, reversed. -/
theorem scalarWidthsBackward_eq (r : WString) :
    scalarWidthsBackward r = (scalarWidths r.reverse).reverse := by
  induction r using scalarWidthsBackward.induct with
  | case1 => rfl
  | case2 c => rfl
  | case3 l h rest hp ih =>
    have hl : IS_LOW_SURROGATE l = true := by simp at hp; exact hp.1
    have hh : IS_HIGH_SURROGATE h = true := by simp at hp; exact hp.2
    have e : (l :: h :: rest).reverse = rest.reverse ++ [h, l] := by simp
    rw [e, scalarWidths_append_pair h l hh hl]
    simp [scalarWidthsBackward, hp, ih]
  | case4 l h rest hp ih =>
    have hn : (IS_HIGH_SURROGATE h && IS_LOW_SURROGATE l) = false := by
      rw [Bool.and_comm]
      simpa using hp
    have e : (l :: h :: rest).reverse = rest.reverse ++ [h, l] := by simp
    have e2 : (h :: rest).reverse = rest.reverse ++ [h] := by simp
    rw [e, scalarWidths_append_single h l hn, ← e2]
    simp [scalarWidthsBackward, hp, ih]

/-- The reading from the end, on a buffer of at least two code units. -/
theorem scalarWidthsBackward_cons_cons (l h : Nat) (rest : WString) :
    scalarWidthsBackward (l :: h :: rest) =
      if (IS_LOW_SURROGATE l && IS_HIGH_SURROGATE h) = true then 2 :: scalarWidthsBackward rest
      else 1 :: scalarWidthsBackward (h :: rest) := by
  rw [scalarWidthsBackward]

/-- The first `k` scalar characters read from the end depend on the last `2 * k` code
units only, and that many code units hold at least `k` scalar characters. -/
theorem scalarWidthsBackward_take : ∀ (k : Nat) (r y : WString), 2 * k ≤ r.length →
    (scalarWidthsBackward (r ++ y)).take k = (scalarWidthsBackward r).take k ∧
    k ≤ (scalarWidthsBackward r).length := by
  intro k
  induction k with
  | zero => intro r y _; simp
  | succ k ih =>
    intro r y hlen
    rcases r with _ | ⟨l, _ | ⟨h, rest⟩⟩
    · simp at hlen
    · simp at hlen
      omega
    · rw [List.cons_append, List.cons_append, scalarWidthsBackward_cons_cons,
        scalarWidthsBackward_cons_cons]
      by_cases hp : (IS_LOW_SURROGATE l && IS_HIGH_SURROGATE h) = true
      · obtain ⟨h1, h2⟩ := ih rest y (by simp at hlen; omega)
        rw [if_pos hp, if_pos hp, List.take_succ_cons, List.take_succ_cons, h1,
          List.length_cons]
        exact ⟨rfl, by omega⟩
      · obtain ⟨h1, h2⟩ := ih (h :: rest) y (by simp at hlen ⊢; omega)
        rw [List.cons_append] at h1
        rw [if_neg hp, if_neg hp, List.take_succ_cons, List.take_succ_cons, h1,
          List.length_cons]
        exact ⟨rfl, by omega⟩

/-- C20. The over-fetch of `2 * k` code units loses nothing: for every buffer `D` and
count `k`, `MeasureCharactersBackward` gives the same flag and the same length on the
last `min(|D|, 2 * k)` code units of `D` as on `D`, also when the cut falls between the
two halves of a surrogate pair. -/
theorem MeasureCharactersBackward_overfetch (D : WString) (k : Nat) :
    MeasureCharactersBackward (D.drop (D.length - min D.length (2 * k))) k =
      MeasureCharactersBackward D k := by
  by_cases hD : D.length ≤ 2 * k
  · have : D.length - min D.length (2 * k) = 0 := by omega
    rw [this, List.drop_zero]
  · have hmin : min D.length (2 * k) = 2 * k := by omega
    rw [hmin]
    have hsplit : D.reverse = (D.drop (D.length - 2 * k)).reverse ++
        (D.take (D.length - 2 * k)).reverse := by
      rw [← List.reverse_append, List.take_append_drop]
    have hlen : 2 * k ≤ (D.drop (D.length - 2 * k)).reverse.length := by
      simp; omega
    obtain ⟨h1, h2⟩ := scalarWidthsBackward_take k _ (D.take (D.length - 2 * k)).reverse hlen
    rw [← hsplit, scalarWidthsBackward_eq, scalarWidthsBackward_eq, List.reverse_reverse,
      List.reverse_reverse] at h1
    rw [scalarWidthsBackward_eq, List.reverse_reverse, List.length_reverse] at h2
    have h3 : k ≤ (scalarWidths D).length := by
      have := congrArg List.length h1
      simp only [List.length_take, List.length_reverse] at this
      omega
    rw [MeasureCharactersBackward_eq, MeasureCharactersBackward_eq]
    simp only [scalarLength, lastScalarsWidth, h2, h3, if_true, h1]

/-! ## Theorems: bound check of the deletion -/

/-- The statuses `E_FAIL` and `E_UNEXPECTED` differ. -/
theorem E_FAIL_ne_E_UNEXPECTED : E_FAIL ≠ E_UNEXPECTED := by decide

/-- The statuses `S_OK` and `E_UNEXPECTED` differ. -/
theorem S_OK_ne_E_UNEXPECTED : S_OK ≠ E_UNEXPECTED := by decide

/-- Below the bound, the conversion of the count to `LONG` is exact. -/
theorem toLONG_of_lt_bound (k : Nat) (hk : k < kMaxCharacterLength) :
    toLONG k = (k : Int) := by
  apply toLONG_of_lt
  have : kMaxCharacterLength = 1048576 := by decide
  rw [this] at hk
  norm_num
  omega

/-- C21. In the deletion session, once the default selection has been located, cloned
and collapsed, the bound check rejects the request with `E_UNEXPECTED` if and only if the
count is at least 1,048,576 (so 1,048,576 is rejected and 1,048,575 passes); on a
rejection the calls made are the selection lookup, the clone and the collapse only, with
no shift, text read or text write, and below the bound the next call is the backward
shift by twice the count. -/
theorem DoEditSession_bound_check (host : DeleterHost) (k : Nat)
    (hselection : FAILED host.GetDefaultSelection = false)
    (hclone : FAILED host.Clone = false)
    (hcollapse : FAILED host.Collapse = false) :
    kMaxCharacterLength = 1048576 ∧
    ∃ o, PrecedingTextDeleter.DoEditSession host k = some o ∧
      (o.hr = E_UNEXPECTED ↔ k ≥ kMaxCharacterLength) ∧
      (k ≥ kMaxCharacterLength →
        o.calls = [HostCall.GetDefaultSelection, HostCall.Clone,
          HostCall.Collapse TfAnchor.TF_ANCHOR_START] ∧
        ∀ c ∈ o.calls, c.isRangeAccess = false) ∧
      (k < kMaxCharacterLength →
        ∃ rest, o.calls = [HostCall.GetDefaultSelection, HostCall.Clone,
          HostCall.Collapse TfAnchor.TF_ANCHOR_START,
          HostCall.ShiftStart (-(k : Int) * 2) 0] ++ rest) := by
  refine ⟨by decide, _, DoEditSession_delete_eq host k, ?_⟩
  have h1 : ¬ FAILED host.GetDefaultSelection = true := by simp [hselection]
  have h2 : ¬ FAILED host.Clone = true := by simp [hclone]
  have h3 : ¬ FAILED host.Collapse = true := by simp [hcollapse]
  by_cases h4 : k ≥ kMaxCharacterLength
  · rw [if_neg h1, if_neg h2, if_neg h3, if_pos h4]
    refine ⟨⟨fun _ => h4, fun _ => rfl⟩, fun _ => ⟨rfl, ?_⟩, ?_⟩
    · intro c hc
      simp only [List.mem_cons, List.mem_singleton, List.not_mem_nil, or_false] at hc
      rcases hc with rfl | rfl | rfl <;> rfl
    · intro hlt
      exact absurd h4 (Nat.not_le_of_lt hlt)
  · have hk : k < kMaxCharacterLength := Nat.lt_of_not_ge h4
    have hlong := toLONG_of_lt_bound k hk
    by_cases h5 : FAILED host.ShiftStart_initial = true
    · rw [if_neg h1, if_neg h2, if_neg h3, if_neg h4, if_pos h5, hlong]
      exact ⟨⟨fun h => absurd h E_FAIL_ne_E_UNEXPECTED, fun h => absurd h h4⟩,
        fun h => absurd h h4, fun _ => ⟨[], rfl⟩⟩
    by_cases h6 : FAILED host.GetText.1 = true ∨ host.GetText.2 = [] ∨
        ¬ k ≤ scalarLength host.GetText.2
    · rw [if_neg h1, if_neg h2, if_neg h3, if_neg h4, if_neg h5, if_pos h6, hlong]
      exact ⟨⟨fun h => absurd h E_FAIL_ne_E_UNEXPECTED, fun h => absurd h h4⟩,
        fun h => absurd h h4, fun _ => ⟨_, rfl⟩⟩
    by_cases h7 : FAILED (host.ShiftStart_final
          (toLONG (host.GetText.2.length - lastScalarsWidth host.GetText.2 k))).1 = true ∨
        toLONG (host.GetText.2.length - lastScalarsWidth host.GetText.2 k) ≠
          (host.ShiftStart_final
            (toLONG (host.GetText.2.length - lastScalarsWidth host.GetText.2 k))).2
    · rw [if_neg h1, if_neg h2, if_neg h3, if_neg h4, if_neg h5, if_neg h6, if_pos h7, hlong]
      exact ⟨⟨fun h => absurd h E_FAIL_ne_E_UNEXPECTED, fun h => absurd h h4⟩,
        fun h => absurd h h4, fun _ => ⟨_, rfl⟩⟩
    · rw [if_neg h1, if_neg h2, if_neg h3, if_neg h4, if_neg h5, if_neg h6, if_neg h7, hlong]
      refine ⟨⟨?_, fun h => absurd h h4⟩, fun h => absurd h h4,
        fun _ => ⟨_, rfl⟩⟩
      intro h
      split_ifs at h
      · exact absurd h E_FAIL_ne_E_UNEXPECTED
      · exact absurd h S_OK_ne_E_UNEXPECTED

/-- Witness of C21: a count of 1,048,576 is rejected before any shift, and a count of
1,048,575 passes the check, shifts back by 2,097,150 code units and reads the text. -/
theorem DoEditSession_bound_check_witness :
    FAILED (sampleDeleterHost [0x61]).GetDefaultSelection = false ∧
    FAILED (sampleDeleterHost [0x61]).Clone = false ∧
    FAILED (sampleDeleterHost [0x61]).Collapse = false ∧
    PrecedingTextDeleter.DoEditSession (sampleDeleterHost [0x61]) 1048576 =
      some { hr := E_UNEXPECTED,
             calls := [HostCall.GetDefaultSelection, HostCall.Clone,
               HostCall.Collapse TfAnchor.TF_ANCHOR_START] } ∧
    PrecedingTextDeleter.DoEditSession (sampleDeleterHost [0x61]) 1048575 =
      some { hr := E_FAIL,
             calls := [HostCall.GetDefaultSelection, HostCall.Clone,
               HostCall.Collapse TfAnchor.TF_ANCHOR_START,
               HostCall.ShiftStart (-2097150) 0, HostCall.GetText] } ∧
    ∃ o, PrecedingTextDeleter.DoEditSession (sampleDeleterHost [0x61]) 1048576 = some o ∧
      (o.hr = E_UNEXPECTED ↔ 1048576 ≥ kMaxCharacterLength) :=
  ⟨by decide, by decide, by decide, by decide, by decide,
    let ⟨o, ho, hiff, _⟩ :=
      (DoEditSession_bound_check (sampleDeleterHost [0x61]) 1048576
        (by decide) (by decide) (by decide)).2
    ⟨o, ho, hiff⟩⟩

end Tsf
